import Mathlib

/-!
Verification development for the particle-life repository.

The repository is a sequence of variants of the same engine; the files under
verification here are `sim.rs` (the pairwise force / integration engine),
`kinds.rs` and `settings.rs` (pairwise parameter-table generation),
`universe.rs` (the older engine variant used by the worker), `channel.rs` /
`channel/native.rs` (the round-tagged step channel) and `wasm.rs` (the
isolated-worker producer loop).

Modelling conventions:
* `f32` arithmetic is idealised as exact rational arithmetic (`ℚ`); the
  formulas under scrutiny are the algebraic ones of the source.
* `f32::sqrt` is the only operation with no rational counterpart; it is
  abstracted as an explicit function argument `sqrtQ`, and every theorem
  holds for every choice of `sqrtQ` (in particular for the true square root).
* random sampling (`Distribution::sample(rng)`) is modelled by explicit
  streams of sampled values, one stream per distribution object, indexed by
  the loop position of the draw.  Quantifying over all streams quantifies
  over all RNG states and all distribution parameters at once, so the
  distribution-parameter fields of `Settings` are not repeated in the model.
* a Rust panic is modelled as `Option.none`.
-/

namespace ParticleLife

/-- Two-dimensional vector of rationals, standing for `glam::Vec2` /
`quicksilver::geom::Vector` (both pairs of `f32`). -/
abbrev Vec2 := ℚ × ℚ

namespace sim

/-- Constant `RADIUS` from sim.rs. -/
def RADIUS : ℚ := 5

/-- Constant `DIAMETER = RADIUS * 2.0` from sim.rs. -/
def DIAMETER : ℚ := RADIUS * 2

/-- Constant `R_SMOOTH` from sim.rs. -/
def R_SMOOTH : ℚ := 2

/-- Structure `PairProps` from sim.rs: the properties between a pair of
particle kinds, together with the fields precomputed at construction time. -/
structure PairProps where
  attraction : ℚ
  repel_distance : ℚ
  influence_radius : ℚ
  influence_radius_sq : ℚ
  peak : ℚ
  inv_base : ℚ
deriving DecidableEq

/-- Placeholder entry used for out-of-range list reads (the source indexes
with `[]`, which never goes out of range on the index sets used here). -/
def PairProps.zero : PairProps := ⟨0, 0, 0, 0, 0, 0⟩

/-- Record literal pushed at sim.rs lines 120-128: the three sampled fields
plus the precomputed `influence_radius_sq`, `peak` and `inv_base`. -/
def mkPairProps (attraction repel_distance influence_radius : ℚ) : PairProps :=
  { attraction := attraction
    repel_distance := repel_distance
    influence_radius := influence_radius
    influence_radius_sq := influence_radius * influence_radius
    peak := 0.5 * (repel_distance + influence_radius)
    inv_base := 2 / (influence_radius - repel_distance) }

/-- Structure `Particle` from sim.rs (position in clip space, velocity in
pixel space, kind index). -/
structure Particle where
  pos : Vec2
  vel : Vec2
  kind : ℕ
deriving DecidableEq

/-- Placeholder particle for out-of-range list reads. -/
def Particle.zero : Particle := ⟨(0, 0), (0, 0), 0⟩

/-- Structure `Settings` from settings.rs, restricted to the fields the core
reads directly.  The three distribution fields (`attraction_distr`,
`repel_distance_distr`, `influence_radius_distr`) are represented by the
sampled-value streams in `Rng` below. -/
structure Settings where
  particles : ℕ
  kinds : ℕ
  friction : ℚ
  flat_force : Bool
deriving DecidableEq

/-- Streams of sampled values standing for the RNG.  The first three streams
are indexed by the loop counters `(i, j)` of the draw in `Sim::new`; the
particle streams are indexed by the particle number (and coordinate draw
number for position/velocity). -/
structure Rng where
  attraction_distr : ℕ → ℕ → ℚ
  repel_distance_distr : ℕ → ℕ → ℚ
  influence_radius_distr : ℕ → ℕ → ℚ
  kind_distr : ℕ → ℕ
  pos_distr : ℕ → ℚ
  vel_distr : ℕ → ℚ

/-- Attraction sample for the ordered pair `(i, j)` (sim.rs lines 95-99):
forced negative on the diagonal. -/
def attractionAt (rng : Rng) (i j : ℕ) : ℚ :=
  if i = j then -|rng.attraction_distr i j| else rng.attraction_distr i j

/-- Radii computed by the `j ≥ i` branch of `Sim::new` (sim.rs lines
107-118): the diagonal repel distance is exactly `DIAMETER`, off-diagonal
samples are clamped up to `DIAMETER`, and the influence radius is clamped up
to the repel distance. -/
def freshRadii (rng : Rng) (i j : ℕ) : ℚ × ℚ :=
  let repel_distance := if i = j then DIAMETER else max (rng.repel_distance_distr i j) DIAMETER
  let influence_radius := rng.influence_radius_distr i j
  let influence_radius :=
    if influence_radius < repel_distance then repel_distance else influence_radius
  (repel_distance, influence_radius)

/-- One iteration of the outer loop of `Sim::new` (sim.rs lines 89-130),
producing row `i` of the `kinds × kinds` table.  For `j < i` the source reads
`pair_props[j * kinds + i]` from the partially built vector; since
`j * kinds + i < i * kinds` whenever `i < kinds`, that read lands in the
already complete rows `0 .. i`, i.e. inside `acc`, so the row never reads its
own entries and can be produced by a plain map. -/
def buildRow (kinds : ℕ) (rng : Rng) (acc : List PairProps) (i : ℕ) : List PairProps :=
  acc ++ (List.range kinds).map fun j =>
    let attraction := attractionAt rng i j
    let rm :=
      if j < i then
        let props := acc.getD (j * kinds + i) PairProps.zero
        (props.repel_distance, props.influence_radius)
      else freshRadii rng i j
    mkPairProps attraction rm.1 rm.2

/-- Pair-property table built by `Sim::new` (sim.rs lines 84-130), row-major:
the entry for kinds `(i, j)` sits at index `i * kinds + j`. -/
def buildProps (kinds : ℕ) (rng : Rng) : List PairProps :=
  (List.range kinds).foldl (buildRow kinds rng) []

/-- Closed form of the radii of entry `(i, j)`: the reused `j < i` entries
resolve to the fresh radii of the swapped pair. -/
def radiiAt (rng : Rng) (i j : ℕ) : ℚ × ℚ :=
  if j < i then freshRadii rng j i else freshRadii rng i j

/-- Closed form of table entry `(i, j)` of `buildProps`. -/
def propsEntry (rng : Rng) (i j : ℕ) : PairProps :=
  mkPairProps (attractionAt rng i j) (radiiAt rng i j).1 (radiiAt rng i j).2

/-- Closed form of the first `m` rows of the table (each of width `kinds`),
proved below to agree with the fold of `buildRow`. -/
def partialProps (kinds m : ℕ) (rng : Rng) : List PairProps :=
  (List.range m).flatMap fun i => (List.range kinds).map (propsEntry rng i)

/-- Closed form of the whole table, proved equal to `buildProps` below. -/
def closedProps (kinds : ℕ) (rng : Rng) : List PairProps :=
  partialProps kinds kinds rng

/-- Colour of kind `i`, modelled by its `Hsv` parameters (hue `angle * i`
with `angle = 360 / kinds`, saturation 1, value alternating 0.5 / 1.0 as in
sim.rs lines 90-91); the fixed `Hsv → LinSrgb` conversion is a pure function
of these parameters and does not matter to any claim. -/
def colorAt (kinds i : ℕ) : ℚ × ℚ × ℚ :=
  (360 / (kinds : ℚ) * i, 1, if i % 2 = 0 then 0.5 else 1)

/-- Colour table built by the outer loop of `Sim::new`. -/
def buildColors (kinds : ℕ) : List (ℚ × ℚ × ℚ) :=
  (List.range kinds).map (colorAt kinds)

/-- Function `Particle::generate` (sim.rs lines 55-66) for the k-th generated
particle.  `Uniform::new(0, num_kinds)` panics when `num_kinds = 0` (an empty
range); the panic is modelled as `none`. -/
def Particle.generate (num_kinds : ℕ) (rng : Rng) (k : ℕ) : Option Particle :=
  if num_kinds = 0 then none
  else some
    { kind := rng.kind_distr k
      pos := (rng.pos_distr (2 * k), rng.pos_distr (2 * k + 1))
      vel := (rng.vel_distr (2 * k), rng.vel_distr (2 * k + 1)) }

/-- Ordering of particles by kind index, the sort key of
`sort_unstable_by_key` in sim.rs lines 137 and 157-158. -/
def kindLe (p q : Particle) : Prop := p.kind ≤ q.kind

instance : DecidableRel kindLe := fun p q => Nat.decLe p.kind q.kind

instance : IsTotal Particle kindLe := ⟨fun p q => Nat.le_total p.kind q.kind⟩

instance : IsTrans Particle kindLe := ⟨fun _ _ _ h h2 => Nat.le_trans h h2⟩

/-- Sorting step of `Sim::new` / `Sim::regenerate_particles`.  The source
uses `sort_unstable_by_key(|p| p.kind)`; insertion sort realises the same
specification (a permutation sorted by the key; the relative order of
equal-kind particles is unspecified for an unstable sort). -/
def sortByKind (l : List Particle) : List Particle :=
  List.insertionSort kindLe l

/-- Structure `Sim` from sim.rs. -/
structure Sim where
  wrap : Bool
  flat_force : Bool
  friction : ℚ
  colors : List (ℚ × ℚ × ℚ)
  pair_props : List PairProps
  particles : List Particle
deriving DecidableEq

/-- Function `Sim::new` (sim.rs lines 82-149).  The colour / pair-property
loops are total; the only panic site is `Particle::generate` (when
`settings.kinds = 0` and at least one particle is generated). -/
def Sim.new (settings : Settings) (rng : Rng) : Option Sim :=
  ((List.range settings.particles).mapM (Particle.generate settings.kinds rng)).map fun ps =>
    { wrap := false
      flat_force := settings.flat_force
      friction := settings.friction
      colors := buildColors settings.kinds
      pair_props := buildProps settings.kinds rng
      particles := sortByKind ps }

/-- Function `Sim::regenerate_particles` (sim.rs lines 151-159): every
existing particle is replaced by a freshly generated one (kind count =
`colors.len()`), then the list is re-sorted by kind. -/
def Sim.regenerateParticles (rng : Rng) (s : Sim) : Option Sim :=
  ((List.range s.particles.length).mapM (Particle.generate s.colors.length rng)).map fun ps =>
    { s with particles := sortByKind ps }

/-- Per-axis minimal-image / wrap adjustment with the clip-space extent 2
(used both for `delta` at sim.rs lines 182-194 and for positions at lines
252-263). -/
def wrapAxis (x : ℚ) : ℚ :=
  if x > 1 then x - 2 else if x < -1 then x + 2 else x

/-- Wrap-corrected and rescaled displacement of the pair loop (sim.rs lines
180-198): `delta = q.pos - p.pos`, minimal-image corrected per axis when wrap
is on, then multiplied componentwise by `scale` to convert clip space to
pixel space. -/
def pairDelta (wrap : Bool) (scale : Vec2) (p q : Particle) : Vec2 :=
  let delta0 := q.pos - p.pos
  let delta1 := if wrap then (wrapAxis delta0.1, wrapAxis delta0.2) else delta0
  (scale.1 * delta1.1, scale.2 * delta1.2)

/-- Squared length of `pairDelta` (sim.rs line 200). -/
def pairDist2 (wrap : Bool) (scale : Vec2) (p q : Particle) : ℚ :=
  let delta := pairDelta wrap scale p q
  delta.1 * delta.1 + delta.2 * delta.2

/-- Body of the inner pair loop of `Sim::step` (sim.rs lines 178-242),
acting on the two particles of the pair.  `sqrtQ` abstracts `f32::sqrt`. -/
def stepPair (wrap flat_force : Bool) (kinds : ℕ) (pair_props : List PairProps)
    (scale : Vec2) (sqrtQ : ℚ → ℚ) (p q : Particle) : Particle × Particle :=
  let delta := pairDelta wrap scale p q
  let dist2 := delta.1 * delta.1 + delta.2 * delta.2
  let props := pair_props.getD (p.kind * kinds + q.kind) PairProps.zero
  if dist2 > props.influence_radius_sq ∨ dist2 < 0.01 then (p, q)
  else
    let dist := sqrtQ dist2
    let fs : ℚ × ℚ :=
      if dist < props.repel_distance then
        let f := R_SMOOTH * props.repel_distance *
          (1 / (props.repel_distance + R_SMOOTH) - 1 / (dist + R_SMOOTH))
        (f, f)
      else
        let f1 := props.attraction
        let f2 := (pair_props.getD (q.kind * kinds + p.kind) PairProps.zero).attraction
        if flat_force then (f1, f2)
        else
          let coefficient := 1 - |dist - props.peak| * props.inv_base
          (f1 * coefficient, f2 * coefficient)
    let direction : Vec2 := (delta.1 / dist, delta.2 / dist)
    ({ p with vel := (p.vel.1 + fs.1 * direction.1, p.vel.2 + fs.1 * direction.2) },
     { q with vel := (q.vel.1 - fs.2 * direction.1, q.vel.2 - fs.2 * direction.2) })

/-- Repulsion magnitude as the spec states it for C2:
`R_SMOOTH * repel_distance * (1/(repel_distance+R_SMOOTH) - 1/(dist+R_SMOOTH))`. -/
def specRepulsion (repel_distance d : ℚ) : ℚ :=
  R_SMOOTH * repel_distance * (1 / (repel_distance + R_SMOOTH) - 1 / (d + R_SMOOTH))

/-- Taper coefficient as the spec states it for C2:
`1 - |dist - peak| / half_base` with `peak = (repel_distance +
influence_radius) / 2` and `half_base = (influence_radius -
repel_distance) / 2`. -/
def specTaper (repel_distance influence_radius d : ℚ) : ℚ :=
  1 - |d - (repel_distance + influence_radius) / 2| / ((influence_radius - repel_distance) / 2)

/-- Pass 1 of `Sim::step` (sim.rs lines 175-243): the double loop over
unordered pairs `i < j`, updating the velocities of both particles in
place. -/
def pass1 (wrap flat_force : Bool) (kinds : ℕ) (pair_props : List PairProps)
    (scale : Vec2) (sqrtQ : ℚ → ℚ) (ps : List Particle) : List Particle :=
  (List.range ps.length).foldl (fun acc i =>
    (List.range' (i + 1) (ps.length - (i + 1))).foldl (fun acc2 j =>
      let pq := stepPair wrap flat_force kinds pair_props scale sqrtQ
        (acc2.getD i Particle.zero) (acc2.getD j Particle.zero)
      (acc2.set i pq.1).set j pq.2) acc) ps

/-- Per-axis reflection of pass 2 (sim.rs lines 264-280): when the particle
radius crosses the clip-space boundary, clamp the position to the boundary
minus the radius and negate that velocity component (each axis is an
if/else-if chain, so at most one branch fires per axis). -/
def reflectAxis (clip_size pos vel : ℚ) : ℚ × ℚ :=
  if pos + clip_size > 1 then (1 - clip_size, -vel)
  else if pos - clip_size < -1 then (-1 + clip_size, -vel)
  else (pos, vel)

/-- Pass 2 of `Sim::step` for one particle (sim.rs lines 245-284):
integration, friction and boundary resolution. -/
def integrate (wrap : Bool) (friction : ℚ) (clip_size inv_scale : Vec2)
    (p : Particle) : Particle :=
  let pos : Vec2 := (p.pos.1 + p.vel.1 * inv_scale.1, p.pos.2 + p.vel.2 * inv_scale.2)
  let vel : Vec2 := (p.vel.1 * (1 - friction), p.vel.2 * (1 - friction))
  if wrap then { p with pos := (wrapAxis pos.1, wrapAxis pos.2), vel := vel }
  else
    let x := reflectAxis clip_size.1 pos.1 vel.1
    let y := reflectAxis clip_size.2 pos.2 vel.2
    { p with pos := (x.1, y.1), vel := (x.2, y.2) }

/-- Function `Sim::step` (sim.rs lines 161-285). -/
def Sim.step (sqrtQ : ℚ → ℚ) (width height : ℚ) (s : Sim) : Sim :=
  let scale : Vec2 := (0.5 * width, 0.5 * height)
  let inv_scale : Vec2 := (2 / width, 2 / height)
  let clip_size : Vec2 := (RADIUS * inv_scale.1, RADIUS * inv_scale.2)
  let stepped := (pass1 s.wrap s.flat_force s.colors.length s.pair_props scale sqrtQ
    s.particles).map (integrate s.wrap s.friction clip_size inv_scale)
  { s with particles := stepped }

end sim

namespace kinds

/-- Constant `DIAMETER` of the crate containing kinds.rs (`RADIUS = 10.0`,
`DIAMETER = RADIUS * 2.0` in its lib.rs). -/
def DIAMETER : ℚ := 20

/-- Structure `SymmetricProperties` from kinds.rs. -/
structure SymmetricProperties where
  repel_distance : ℚ
  influence_radius : ℚ
deriving DecidableEq

/-- Placeholder entry for out-of-range list reads. -/
def SymmetricProperties.zero : SymmetricProperties := ⟨0, 0⟩

/-- Structure `ParticleKinds` from kinds.rs.  Colours are modelled by their
`Hsv` parameters as in `sim.buildColors`. -/
structure ParticleKinds where
  colors : List (ℚ × ℚ × ℚ)
  attractions : List ℚ
  symmetric_properties : List SymmetricProperties
deriving DecidableEq

/-- Symmetric-property entry generated by the `j ≤ i` branch of
`ParticleKinds::random` (kinds.rs lines 51-65).  Note that the off-diagonal
repel distance is the raw sample, with no clamp against `DIAMETER`; only the
influence radius is clamped up to the repel distance. -/
def symPropsAt (rng : sim.Rng) (i j : ℕ) : SymmetricProperties :=
  let repel_distance := if i = j then DIAMETER else rng.repel_distance_distr i j
  let influence_radius := rng.influence_radius_distr i j
  ⟨repel_distance, if influence_radius < repel_distance then repel_distance else influence_radius⟩

/-- Function `ParticleKinds::random` (kinds.rs lines 29-74).  The push order
of the loops gives the flat attraction table the row-major index
`i * kinds + j` and the triangular table the index `i * (i + 1) / 2 + j` for
`j ≤ i`.  All loops are total: with `kinds = 0` the function returns the
record with three empty vectors. -/
def ParticleKinds.random (settings : sim.Settings) (rng : sim.Rng) : ParticleKinds :=
  { colors := (List.range settings.kinds).map (sim.colorAt settings.kinds)
    attractions := (List.range settings.kinds).flatMap fun i =>
      (List.range settings.kinds).map fun j => sim.attractionAt rng i j
    symmetric_properties := (List.range settings.kinds).flatMap fun i =>
      (List.range (i + 1)).map fun j => symPropsAt rng i j }

end kinds

namespace univ

/-- Constant `RADIUS` from universe.rs. -/
def RADIUS : ℚ := 5

/-- Constant `DIAMETER = RADIUS * 2.0` from universe.rs. -/
def DIAMETER : ℚ := 10

/-- Structure `Particle` from particle.rs; the field `ptype` models the raw
identifier field written in the source with an escaped keyword. -/
structure Particle where
  pos : Vec2
  vel : Vec2
  ptype : ℕ
deriving DecidableEq

/-- Structure `Universe` from universe.rs.  Colours are modelled by their
`Hsv` parameters. -/
structure Universe where
  size : Vec2
  wrap : Bool
  flat_force : Bool
  friction : ℚ
  colors : List (ℚ × ℚ × ℚ)
  attractions : List (List ℚ)
  min_radii : List (List ℚ)
  max_radii : List (List ℚ)
  particles : List Particle
deriving DecidableEq

/-- Function `Universe::new` (universe.rs lines 163-178). -/
def Universe.new (size : Vec2) : Universe :=
  ⟨size, false, false, 0.05, [], [], [], [], []⟩

/-- Entropy consumed from the process-global `OsRng`.  universe.rs samples
the thread-ambient `OsRng` instead of a caller-supplied generator, so the
consumed entropy is made an explicit input here (a pure embedding has no
ambient randomness); the streams are indexed by the loop position of the
draw exactly as in `sim.Rng`. -/
structure Entropy where
  attr_distr : ℕ → ℕ → ℚ
  minr_distr : ℕ → ℕ → ℚ
  maxr_distr : ℕ → ℕ → ℚ
  ptype_distr : ℕ → ℕ
  pos_distr : ℕ → ℚ
  vel_distr : ℕ → ℚ

/-- Colour of type `i` in `Universe::seed_types` (universe.rs lines 239-246):
hue `i / num * 360`, saturation 1, value `(i % 2 + 1) * 0.5`. -/
def colorAt (num i : ℕ) : ℚ × ℚ × ℚ :=
  ((i : ℚ) / (num : ℚ) * 360, 1, ((i % 2 : ℕ) + 1 : ℚ) * 0.5)

/-- Attraction entry of `Universe::seed_types` (universe.rs lines 251-255). -/
def attractionAt (e : Entropy) (i j : ℕ) : ℚ :=
  if i = j then -|e.attr_distr i j| else e.attr_distr i j

/-- Min-radius entry computed by the `i ≤ j` arms of the match at universe.rs
lines 258-262. -/
def minRadiusFresh (e : Entropy) (i j : ℕ) : ℚ :=
  if i = j then DIAMETER else max (e.minr_distr i j) DIAMETER

/-- Min-radius entry of `Universe::seed_types`: for `i > j` the source reads
`min_radii[j][i]`, the entry the earlier (complete) row `j` computed in its
`Ordering::Less` arm, i.e. `minRadiusFresh e j i`. -/
def minRadiusAt (e : Entropy) (i j : ℕ) : ℚ :=
  if j < i then minRadiusFresh e j i else minRadiusFresh e i j

/-- Max-radius entry computed by the `i ≤ j` branch at universe.rs lines
265-267: the sample clamped up to the min radius of the same cell. -/
def maxRadiusFresh (e : Entropy) (i j : ℕ) : ℚ :=
  max (e.maxr_distr i j) (minRadiusAt e i j)

/-- Max-radius entry of `Universe::seed_types`: for `i > j` the source reads
`max_radii[j][i]` from the earlier complete row `j`. -/
def maxRadiusAt (e : Entropy) (i j : ℕ) : ℚ :=
  if j < i then maxRadiusFresh e j i else maxRadiusFresh e i j

/-- Function `Universe::seed_types` (universe.rs lines 224-273), with the
row-reuse reads inlined as described on `minRadiusAt` / `maxRadiusAt`. -/
def Universe.seedTypes (num : ℕ) (e : Entropy) (u : Universe) : Universe :=
  { u with
    colors := (List.range num).map (colorAt num)
    attractions := (List.range num).map fun i => (List.range num).map (attractionAt e i)
    min_radii := (List.range num).map fun i => (List.range num).map (minRadiusAt e i)
    max_radii := (List.range num).map fun i => (List.range num).map (maxRadiusAt e i) }

/-- Function `Universe::randomize_particles_inner` (universe.rs lines
192-222).  `Uniform::new(0, self.colors.len())` panics when the colour table
is empty (an empty range), before any particle is generated; the
wrap-dependent position ranges only shape the distribution, whose sampled
values the entropy streams provide. -/
def Universe.randomizeParticlesInner (e : Entropy) (num : ℕ) (u : Universe) : Option Universe :=
  if u.colors.length = 0 then none
  else some
    { u with particles := (List.range num).map fun k =>
        ⟨(e.pos_distr (2 * k), e.pos_distr (2 * k + 1)),
         (e.vel_distr (2 * k), e.vel_distr (2 * k + 1)),
         e.ptype_distr k⟩ }

/-- Function `Universe::randomize_particles` (universe.rs lines 188-190). -/
def Universe.randomizeParticles (e : Entropy) (u : Universe) : Option Universe :=
  u.randomizeParticlesInner e u.particles.length

/-- Per-universe settings fields consumed by `Universe::seed`; the worker
protocol carries the type/particle counts with the settings payload (the
worker variant's one-argument `seed` takes them from there). -/
structure Seed where
  types : ℕ
  particleCount : ℕ
  friction : ℚ
  flat_force : Bool
deriving DecidableEq

/-- Function `Universe::seed` (universe.rs lines 180-186): store friction and
flat-force, reseed the type tables, then regenerate the particles. -/
def Universe.seed (e : Entropy) (sd : Seed) (u : Universe) : Option Universe :=
  (Universe.seedTypes sd.types e
    { u with friction := sd.friction, flat_force := sd.flat_force }).randomizeParticlesInner
    e sd.particleCount

/-- Function `Universe::resize` (universe.rs lines 457-467). -/
def Universe.resize (size : Vec2) (u : Universe) : Universe :=
  let mult : Vec2 := (size.1 / u.size.1, size.2 / u.size.2)
  { u with
    size := size
    particles := u.particles.map fun p => { p with pos := (p.pos.1 * mult.1, p.pos.2 * mult.2) } }

end univ

namespace channel

/-- Enum `Command` from channel.rs lines 55-62. -/
inductive Command where
  | resize (size : Vec2)
  | seed (settings : univ.Seed)
  | toggleWrap
  | randomizeParticles
  | step
deriving DecidableEq

/-- Frame payload sent from the worker: a round tag and a particle
snapshot. -/
abbrev Frame := List univ.Particle

/-- Consumer-side state of `StepChannel` (channel/native.rs lines 59-65):
the consumer's `round` counter and the frames currently queued in the
worker-to-consumer receiver, oldest first. -/
structure StepChannel where
  round : ℕ
  rx : List (ℕ × Frame)
deriving DecidableEq

/-- Skipping loop of `poll_next` over the queued frames: pop the oldest; a
frame whose tag matches the current round is delivered, any other frame is
dropped and the next one is tried; an empty queue pends. -/
def pollNextAux (round : ℕ) : List (ℕ × Frame) → Option Frame × List (ℕ × Frame)
  | [] => (none, [])
  | (tag, frame) :: rest =>
      if tag = round then (some frame, rest) else pollNextAux round rest

/-- Function `StepChannel::poll_next` (channel/native.rs lines 115-128,
identically channel.rs lines 197-211): `none` models `Poll::Pending`. -/
def pollNext (c : StepChannel) : Option Frame × StepChannel :=
  let r := pollNextAux c.round c.rx
  (r.1, ⟨c.round, r.2⟩)

/-- Commands on which `StepChannel::start_send` (channel/native.rs lines
138-147) bumps the round: `Seed`, `RandomizeParticles` and `Resize`. -/
def isReset : Command → Bool
  | .seed _ => true
  | .randomizeParticles => true
  | .resize _ => true
  | _ => false

/-- Consumer-side effect of `StepChannel::start_send` (channel/native.rs
lines 138-147): a reset command increments `round` and drains every frame
still queued in the receiver; other commands leave the channel state
alone. -/
def startSend (c : StepChannel) (cmd : Command) : StepChannel :=
  if isReset cmd then ⟨c.round + 1, []⟩ else c

/-- Events observable at the consumer side of the channel: a frame arriving
from the worker (appended to the receiver queue), a command being sent, and
a poll of the stream. -/
inductive Event where
  | recv (tag : ℕ) (frame : Frame)
  | send (cmd : Command)
  | poll
deriving DecidableEq

/-- Transition of the consumer-side channel state under one event. -/
def applyEvent (c : StepChannel) : Event → StepChannel
  | .recv tag frame => ⟨c.round, c.rx ++ [(tag, frame)]⟩
  | .send cmd => startSend c cmd
  | .poll => (pollNext c).2

/-- Iterated event application. -/
def applyEvents (c : StepChannel) (evs : List Event) : StepChannel :=
  evs.foldl applyEvent c

end channel

namespace worker

/-- Producer-side loop state of `run_worker`: the local `round` counter and
the owned universe. -/
structure WorkerState where
  round : ℕ
  uni : univ.Universe
deriving DecidableEq

/-- Command handling of the native `run_worker` (channel/native.rs lines
32-49).  `Resize`, `Seed` and `RandomizeParticles` all bump `round`;
`ToggleWrap` only flips the wrap flag; `Step` falls into the wildcard arm
and does nothing.  A `none` result models a panic inside the universe
reseeding. -/
def runWorkerCmd (e : univ.Entropy) (s : WorkerState) :
    channel.Command → Option WorkerState
  | .resize size => some ⟨s.round + 1, s.uni.resize size⟩
  | .seed sd => (s.uni.seed e sd).map fun u => ⟨s.round + 1, u⟩
  | .toggleWrap => some ⟨s.round, { s.uni with wrap := !s.uni.wrap }⟩
  | .randomizeParticles => (s.uni.randomizeParticles e).map fun u => ⟨s.round + 1, u⟩
  | .step => some s

/-- Command handling of the wasm `run_worker` (wasm.rs lines 49-70).
`Resize` does not bump `round` there; `Step` advances the universe one tick
and posts a frame.  The tick itself (a different engine variant's
`Universe::step`) is irrelevant to the round counter and the wrap flag and
is abstracted as the argument `stepU`; the theorems hold for every
`stepU`. -/
def wasmWorkerCmd (e : univ.Entropy) (stepU : univ.Universe → univ.Universe)
    (s : WorkerState) : channel.Command → Option WorkerState
  | .resize size => some ⟨s.round, s.uni.resize size⟩
  | .seed sd => (s.uni.seed e sd).map fun u => ⟨s.round + 1, u⟩
  | .toggleWrap => some ⟨s.round, { s.uni with wrap := !s.uni.wrap }⟩
  | .randomizeParticles => (s.uni.randomizeParticles e).map fun u => ⟨s.round + 1, u⟩
  | .step => some ⟨s.round, stepU s.uni⟩

end worker

/-!
Helper lemmas.  First the indexing lemmas for row-major and triangular
tables laid out as flat lists, then the closed form of the pair-property
table of `Sim::new`.
-/

/-- Length of a flattened rectangular table with `m` rows of width `K`. -/
theorem length_flatMap_rect {α : Type} (f : ℕ → ℕ → α) (K m : ℕ) :
    ((List.range m).flatMap fun a => (List.range K).map (f a)).length = m * K := by
  induction m with
  | zero => simp
  | succ n ih =>
      rw [List.range_succ, List.flatMap_append, List.length_append, ih]
      simp [Nat.succ_mul]

/-- Row-major indexing of a flattened rectangular table. -/
theorem getD_flatMap_rect {α : Type} (f : ℕ → ℕ → α) (K : ℕ) (d : α) :
    ∀ m i j, i < m → j < K →
      ((List.range m).flatMap fun a => (List.range K).map (f a)).getD (i * K + j) d = f i j := by
  intro m
  induction m with
  | zero => exact fun i j hi _ => absurd hi (Nat.not_lt_zero i)
  | succ n ih =>
      intro i j hi hj
      rw [List.range_succ, List.flatMap_append, List.flatMap_cons, List.flatMap_nil,
        List.append_nil]
      rcases Nat.lt_succ_iff_lt_or_eq.mp hi with h | rfl
      · rw [List.getD_append _ _ _ _ (by
          rw [length_flatMap_rect]
          calc i * K + j < i * K + K := by omega
            _ = (i + 1) * K := by ring
            _ ≤ n * K := Nat.mul_le_mul_right K h)]
        exact ih i j h hj
      · rw [List.getD_append_right _ _ _ _ (by rw [length_flatMap_rect]; omega)]
        rw [length_flatMap_rect, Nat.add_sub_cancel_left]
        rw [List.getD_eq_getElem _ _ (by simpa using hj)]
        simp [hj]

/-- Length of a flattened lower-triangular table with rows `0, …, m - 1` of
widths `1, …, m`. -/
theorem length_flatMap_tri {α : Type} (f : ℕ → ℕ → α) (m : ℕ) :
    2 * ((List.range m).flatMap fun a => (List.range (a + 1)).map (f a)).length
      = m * (m + 1) := by
  induction m with
  | zero => simp
  | succ n ih =>
      rw [List.range_succ, List.flatMap_append, List.length_append]
      simp only [List.flatMap_cons, List.flatMap_nil, List.append_nil, List.length_map,
        List.length_range]
      have h2 : (n + 1) * (n + 1 + 1) = n * (n + 1) + 2 * (n + 1) := by ring
      omega

/-- Triangular indexing: entry `(i, j)` with `j ≤ i` sits at index
`i * (i + 1) / 2 + j`. -/
theorem getD_flatMap_tri {α : Type} (f : ℕ → ℕ → α) (d : α) :
    ∀ m i j, i < m → j ≤ i →
      ((List.range m).flatMap fun a => (List.range (a + 1)).map (f a)).getD
        (i * (i + 1) / 2 + j) d = f i j := by
  intro m
  induction m with
  | zero => exact fun i j hi _ => absurd hi (Nat.not_lt_zero i)
  | succ n ih =>
      intro i j hi hj
      rw [List.range_succ, List.flatMap_append, List.flatMap_cons, List.flatMap_nil,
        List.append_nil]
      have hev : 2 * (i * (i + 1) / 2) = i * (i + 1) :=
        Nat.two_mul_div_two_of_even (Nat.even_mul_succ_self i)
      rcases Nat.lt_succ_iff_lt_or_eq.mp hi with h | rfl
      · have hlen := length_flatMap_tri f n
        rw [List.getD_append _ _ _ _ (by
          have hmon : (i + 1) * (i + 2) ≤ n * (n + 1) :=
            Nat.mul_le_mul (by omega) (by omega)
          have hexp : (i + 1) * (i + 2) = i * (i + 1) + 2 * (i + 1) := by ring
          omega)]
        exact ih i j h hj
      · have hlen := length_flatMap_tri f i
        rw [List.getD_append_right _ _ _ _ (by omega)]
        have hsub : i * (i + 1) / 2 + j -
            ((List.range i).flatMap fun a => (List.range (a + 1)).map (f a)).length = j := by
          omega
        rw [hsub, List.getD_eq_getElem _ _ (by simpa using Nat.lt_succ_of_le hj)]
        simp [Nat.lt_succ_of_le hj]

namespace sim

theorem mkPairProps_attraction (a r m : ℚ) : (mkPairProps a r m).attraction = a := rfl

theorem mkPairProps_repel (a r m : ℚ) : (mkPairProps a r m).repel_distance = r := rfl

theorem mkPairProps_influence (a r m : ℚ) : (mkPairProps a r m).influence_radius = m := rfl

/-- Indexing the closed-form prefix of the table. -/
theorem partialProps_getD (kinds : ℕ) (rng : Rng) {m i j : ℕ} (hi : i < m) (hj : j < kinds) :
    (partialProps kinds m rng).getD (i * kinds + j) PairProps.zero = propsEntry rng i j :=
  getD_flatMap_rect _ kinds _ m i j hi hj

/-- The fold of `buildRow` produces exactly the closed-form rows. -/
theorem buildProps_prefix_eq (kinds : ℕ) (rng : Rng) :
    ∀ m, m ≤ kinds →
      (List.range m).foldl (buildRow kinds rng) [] = partialProps kinds m rng := by
  intro m
  induction m with
  | zero => intro _; simp [partialProps]
  | succ n ih =>
      intro h
      rw [List.range_succ, List.foldl_append, ih (by omega), List.foldl_cons, List.foldl_nil]
      show buildRow kinds rng (partialProps kinds n rng) n = partialProps kinds (n + 1) rng
      rw [buildRow]
      have hrows : partialProps kinds (n + 1) rng
          = partialProps kinds n rng ++ (List.range kinds).map (propsEntry rng n) := by
        rw [partialProps, partialProps, List.range_succ, List.flatMap_append, List.flatMap_cons,
          List.flatMap_nil, List.append_nil]
      rw [hrows]
      congr 1
      refine List.map_congr_left fun j hj => ?_
      have hjk : j < kinds := List.mem_range.mp hj
      by_cases hjn : j < n
      · simp only [if_pos hjn]
        rw [partialProps_getD kinds rng hjn (by omega)]
        show mkPairProps (attractionAt rng n j) (propsEntry rng j n).repel_distance
          (propsEntry rng j n).influence_radius = propsEntry rng n j
        rw [propsEntry, propsEntry, mkPairProps_repel, mkPairProps_influence]
        have h1 : radiiAt rng j n = freshRadii rng j n := by
          rw [radiiAt, if_neg (by omega)]
        have h2 : radiiAt rng n j = freshRadii rng j n := by
          rw [radiiAt, if_pos hjn]
        rw [h1, h2]
      · simp only [if_neg hjn]
        show mkPairProps (attractionAt rng n j) (freshRadii rng n j).1 (freshRadii rng n j).2
          = propsEntry rng n j
        rw [propsEntry]
        have h2 : radiiAt rng n j = freshRadii rng n j := by
          rw [radiiAt, if_neg hjn]
        rw [h2]

/-- The table of `Sim::new` equals its closed form. -/
theorem buildProps_eq_closed (kinds : ℕ) (rng : Rng) :
    buildProps kinds rng = closedProps kinds rng :=
  buildProps_prefix_eq kinds rng kinds le_rfl

/-- Entry `(i, j)` of the table of `Sim::new`. -/
theorem buildProps_getD (kinds : ℕ) (rng : Rng) {i j : ℕ} (hi : i < kinds) (hj : j < kinds) :
    (buildProps kinds rng).getD (i * kinds + j) PairProps.zero = propsEntry rng i j := by
  rw [buildProps_eq_closed, closedProps, partialProps_getD kinds rng hi hj]

/-- The closed-form radii are symmetric in the pair. -/
theorem radiiAt_symm (rng : Rng) (i j : ℕ) : radiiAt rng i j = radiiAt rng j i := by
  rcases lt_trichotomy i j with h | h | h
  · rw [radiiAt, radiiAt, if_neg (by omega), if_pos h]
  · subst h; rfl
  · rw [radiiAt, radiiAt, if_pos h, if_neg (by omega)]

/-- First component of `freshRadii`, written out. -/
theorem freshRadii_fst (rng : Rng) (i j : ℕ) :
    (freshRadii rng i j).1
      = if i = j then DIAMETER else max (rng.repel_distance_distr i j) DIAMETER := rfl

/-- Second component of `freshRadii`, written out. -/
theorem freshRadii_snd (rng : Rng) (i j : ℕ) :
    (freshRadii rng i j).2
      = if rng.influence_radius_distr i j < (freshRadii rng i j).1 then (freshRadii rng i j).1
        else rng.influence_radius_distr i j := rfl

/-- The fresh radii satisfy the generation invariants of `Sim::new`:
`DIAMETER ≤ repel_distance ≤ influence_radius`, with equality
`repel_distance = DIAMETER` on the diagonal. -/
theorem freshRadii_invariants (rng : Rng) (i j : ℕ) :
    DIAMETER ≤ (freshRadii rng i j).1 ∧ (freshRadii rng i j).1 ≤ (freshRadii rng i j).2
      ∧ (i = j → (freshRadii rng i j).1 = DIAMETER) := by
  refine ⟨?_, ?_, fun hij => by rw [freshRadii_fst, if_pos hij]⟩
  · rw [freshRadii_fst]
    split
    · exact le_refl DIAMETER
    · exact le_max_right _ _
  · rw [freshRadii_snd]
    split
    · exact le_refl _
    · exact le_of_not_lt (by assumption)

end sim

namespace kinds

theorem symPropsAt_repel (rng : sim.Rng) (i j : ℕ) :
    (symPropsAt rng i j).repel_distance
      = if i = j then DIAMETER else rng.repel_distance_distr i j := rfl

theorem symPropsAt_influence (rng : sim.Rng) (i j : ℕ) :
    (symPropsAt rng i j).influence_radius
      = if rng.influence_radius_distr i j < (symPropsAt rng i j).repel_distance
        then (symPropsAt rng i j).repel_distance
        else rng.influence_radius_distr i j := rfl

/-- Triangular indexing of the symmetric-properties table of
`ParticleKinds::random`. -/
theorem random_symProps_getD (st : sim.Settings) (rng : sim.Rng) (i j : ℕ)
    (hi : i < st.kinds) (hj : j ≤ i) :
    (ParticleKinds.random st rng).symmetric_properties.getD (i * (i + 1) / 2 + j)
      SymmetricProperties.zero = symPropsAt rng i j := by
  show ((List.range st.kinds).flatMap fun a =>
      (List.range (a + 1)).map (symPropsAt rng a)).getD (i * (i + 1) / 2 + j)
      SymmetricProperties.zero = symPropsAt rng i j
  exact getD_flatMap_tri _ _ st.kinds i j hi hj

/-- The clamp `influence_radius ≥ repel_distance` and the exact diagonal
hold for every generated symmetric-property entry of kinds.rs. -/
theorem symPropsAt_invariants (rng : sim.Rng) (i j : ℕ) :
    (symPropsAt rng i j).repel_distance ≤ (symPropsAt rng i j).influence_radius
      ∧ (i = j → (symPropsAt rng i j).repel_distance = DIAMETER) := by
  constructor
  · rw [symPropsAt_influence]
    split
    · exact le_refl _
    · exact le_of_not_lt (by assumption)
  · intro hij; rw [symPropsAt_repel, if_pos hij]

end kinds

namespace channel

/-- Characterisation of a successful `poll_next`: the delivered frame is the
first queued frame tagged with the current round, everything queued before it
carries a different (stale) tag and is dropped, and the queue continues after
the delivered frame. -/
theorem pollNextAux_spec (round : ℕ) :
    ∀ (l : List (ℕ × Frame)) (f : Frame) (rest : List (ℕ × Frame)),
      pollNextAux round l = (some f, rest) →
      ∃ pre, l = pre ++ (round, f) :: rest ∧ ∀ t g, (t, g) ∈ pre → t ≠ round := by
  intro l
  induction l with
  | nil =>
      intro f rest h
      exact absurd h (by rw [pollNextAux]; simp)
  | cons hd tl ih =>
      intro f rest h
      obtain ⟨tag, frame⟩ := hd
      rw [pollNextAux] at h
      by_cases htag : tag = round
      · rw [if_pos htag] at h
        obtain ⟨h1, h2⟩ := Prod.mk.injEq .. ▸ h
        refine ⟨[], ?_, by simp⟩
        simp only [List.nil_append]
        rw [htag, Option.some.inj h1, h2]
      · rw [if_neg htag] at h
        obtain ⟨pre, hpre, hstale⟩ := ih f rest h
        refine ⟨(tag, frame) :: pre, by rw [List.cons_append, hpre], ?_⟩
        intro t g hm
        rcases List.mem_cons.mp hm with heq | hmem
        · obtain ⟨rfl, rfl⟩ := Prod.mk.injEq .. ▸ heq
          exact htag
        · exact hstale t g hmem

/-- A successful `poll_next` delivers a frame that was queued with a tag
equal to the channel's current round, the stale prefix before it being
dropped. -/
theorem pollNext_spec (c : StepChannel) (f : Frame) (c' : StepChannel)
    (h : pollNext c = (some f, c')) :
    ∃ pre rest, c.rx = pre ++ (c.round, f) :: rest
      ∧ (∀ t g, (t, g) ∈ pre → t ≠ c.round) ∧ c' = ⟨c.round, rest⟩ := by
  rw [pollNext] at h
  obtain ⟨h1, h2⟩ := Prod.mk.injEq .. ▸ h
  obtain ⟨pre, hpre, hstale⟩ := pollNextAux_spec c.round c.rx f
    (pollNextAux c.round c.rx).2 (by rw [← h1])
  exact ⟨pre, (pollNextAux c.round c.rx).2, hpre, hstale, by rw [← h2]⟩

/-- The consumer-side round counter never decreases under any event. -/
theorem applyEvent_round_le (c : StepChannel) (e : Event) :
    c.round ≤ (applyEvent c e).round := by
  cases e with
  | recv tag frame => exact le_refl _
  | send cmd =>
      show c.round ≤ (startSend c cmd).round
      rw [startSend]
      split
      · exact Nat.le_succ _
      · exact le_refl _
  | poll => exact le_refl _

/-- The consumer-side round counter never decreases under any event
sequence. -/
theorem applyEvents_round_le (evs : List Event) :
    ∀ c : StepChannel, c.round ≤ (applyEvents c evs).round := by
  induction evs with
  | nil => intro c; exact le_refl _
  | cons e tl ih =>
      intro c
      exact le_trans (applyEvent_round_le c e) (ih (applyEvent c e))

/-- Sending `Seed` bumps the consumer round by exactly one and drains the
queued frames. -/
theorem startSend_seed (c : StepChannel) (sd : univ.Seed) :
    startSend c (.seed sd) = ⟨c.round + 1, []⟩ := by
  rw [startSend]; rfl

end channel

namespace sim

/-- A pair rejected by the distance guard (sim.rs line 213) leaves both
particles exactly as they were. -/
theorem stepPair_reject (wrap flat_force : Bool) (kinds : ℕ) (pair_props : List PairProps)
    (scale : Vec2) (sqrtQ : ℚ → ℚ) (p q : Particle)
    (h : pairDist2 wrap scale p q
        > (pair_props.getD (p.kind * kinds + q.kind) PairProps.zero).influence_radius_sq
      ∨ pairDist2 wrap scale p q < 0.01) :
    stepPair wrap flat_force kinds pair_props scale sqrtQ p q = (p, q) := by
  simp only [stepPair]
  split
  · rfl
  · exact absurd h (by assumption)

/-- In the repulsion branch (`dist < repel_distance`, sim.rs lines 219-223)
both particles receive the identical magnitude `specRepulsion`, applied along
the normalised direction with opposite signs. -/
theorem stepPair_repel (wrap flat_force : Bool) (kinds : ℕ) (pair_props : List PairProps)
    (scale : Vec2) (sqrtQ : ℚ → ℚ) (p q : Particle) (a R M : ℚ)
    (hpp : pair_props.getD (p.kind * kinds + q.kind) PairProps.zero = mkPairProps a R M)
    (hguard : ¬(pairDist2 wrap scale p q > M * M ∨ pairDist2 wrap scale p q < 0.01))
    (hd : sqrtQ (pairDist2 wrap scale p q) < R) :
    stepPair wrap flat_force kinds pair_props scale sqrtQ p q =
      (let d := sqrtQ (pairDist2 wrap scale p q)
       let dir : Vec2 := ((pairDelta wrap scale p q).1 / d, (pairDelta wrap scale p q).2 / d)
       let f := specRepulsion R d
       ({ p with vel := (p.vel.1 + f * dir.1, p.vel.2 + f * dir.2) },
        { q with vel := (q.vel.1 - f * dir.1, q.vel.2 - f * dir.2) })) := by
  simp only [stepPair, hpp]
  split
  · exact absurd (by assumption) hguard
  · split
    · rfl
    · exact absurd hd (by assumption)

/-- In the attraction branch (`dist ≥ repel_distance`, sim.rs lines 224-236)
particle `i` receives `attraction(kind_i, kind_j)` and particle `j` receives
`attraction(kind_j, kind_i)`, each multiplied by the same coefficient: 1 when
`flat_force` is set and the spec's triangular taper otherwise, applied along
the normalised direction with opposite signs. -/
theorem stepPair_attract (wrap flat_force : Bool) (kinds : ℕ) (pair_props : List PairProps)
    (scale : Vec2) (sqrtQ : ℚ → ℚ) (p q : Particle) (a R M : ℚ)
    (hpp : pair_props.getD (p.kind * kinds + q.kind) PairProps.zero = mkPairProps a R M)
    (hguard : ¬(pairDist2 wrap scale p q > M * M ∨ pairDist2 wrap scale p q < 0.01))
    (hd : ¬sqrtQ (pairDist2 wrap scale p q) < R) :
    stepPair wrap flat_force kinds pair_props scale sqrtQ p q =
      (let d := sqrtQ (pairDist2 wrap scale p q)
       let dir : Vec2 := ((pairDelta wrap scale p q).1 / d, (pairDelta wrap scale p q).2 / d)
       let c := if flat_force then 1 else specTaper R M d
       let a2 := (pair_props.getD (q.kind * kinds + p.kind) PairProps.zero).attraction
       ({ p with vel := (p.vel.1 + a * c * dir.1, p.vel.2 + a * c * dir.2) },
        { q with vel := (q.vel.1 - a2 * c * dir.1, q.vel.2 - a2 * c * dir.2) })) := by
  have htaper : ∀ d : ℚ, 1 - |d - 0.5 * (R + M)| * (2 / (M - R)) = specTaper R M d := by
    intro d
    rw [specTaper]
    have h1 : (0.5 : ℚ) * (R + M) = (R + M) / 2 := by ring
    rw [h1, div_div_eq_mul_div, mul_div_assoc]
  simp only [stepPair, hpp]
  split
  · exact absurd (by assumption) hguard
  · split
    · exact absurd (by assumption) hd
    · cases flat_force with
      | true =>
          simp only [pairDist2, mkPairProps, if_true, mul_one]
      | false =>
          simp only [pairDist2, mkPairProps, Bool.false_eq_true, if_false]
          rw [htaper]

/-- One wrap adjustment changes the coordinate by an integer multiple of the
clip-space extent 2. -/
theorem wrapAxis_sub_mul (x : ℚ) : ∃ k : ℤ, wrapAxis x = x + 2 * k := by
  rw [wrapAxis]
  split
  · exact ⟨-1, by push_cast; ring⟩
  · split
    · exact ⟨1, by push_cast; ring⟩
    · exact ⟨0, by push_cast; ring⟩

/-- Wrap-mode integration written out (the `if wrap` branch of pass 2). -/
theorem integrate_wrap_eq (friction : ℚ) (clip_size inv_scale : Vec2) (p : Particle) :
    integrate true friction clip_size inv_scale p =
      { p with
        pos := (wrapAxis (p.pos.1 + p.vel.1 * inv_scale.1),
                wrapAxis (p.pos.2 + p.vel.2 * inv_scale.2))
        vel := (p.vel.1 * (1 - friction), p.vel.2 * (1 - friction)) } := rfl

/-- Reflect-mode integration written out (the `else` branch of pass 2). -/
theorem integrate_reflect_eq (friction : ℚ) (clip_size inv_scale : Vec2) (p : Particle) :
    integrate false friction clip_size inv_scale p =
      (let x := reflectAxis clip_size.1 (p.pos.1 + p.vel.1 * inv_scale.1)
        (p.vel.1 * (1 - friction))
       let y := reflectAxis clip_size.2 (p.pos.2 + p.vel.2 * inv_scale.2)
        (p.vel.2 * (1 - friction))
       { p with pos := (x.1, y.1), vel := (x.2, y.2) }) := rfl

/-- Reflection on the high side: position clamped to the boundary minus the
radius, velocity component negated once. -/
theorem reflectAxis_high (clip_size pos vel : ℚ) (h : pos + clip_size > 1) :
    reflectAxis clip_size pos vel = (1 - clip_size, -vel) := by
  rw [reflectAxis, if_pos h]

/-- Reflection on the low side (the high side not firing): position clamped,
velocity component negated once. -/
theorem reflectAxis_low (clip_size pos vel : ℚ) (h1 : ¬pos + clip_size > 1)
    (h2 : pos - clip_size < -1) :
    reflectAxis clip_size pos vel = (-1 + clip_size, -vel) := by
  rw [reflectAxis, if_neg h1, if_pos h2]

/-- No boundary contact: position and velocity component pass through. -/
theorem reflectAxis_none (clip_size pos vel : ℚ) (h1 : ¬pos + clip_size > 1)
    (h2 : ¬pos - clip_size < -1) :
    reflectAxis clip_size pos vel = (pos, vel) := by
  rw [reflectAxis, if_neg h1, if_neg h2]

/-- The pair interaction never changes the first particle's kind. -/
theorem stepPair_kind_fst (wrap flat_force : Bool) (kinds : ℕ) (pair_props : List PairProps)
    (scale : Vec2) (sqrtQ : ℚ → ℚ) (p q : Particle) :
    (stepPair wrap flat_force kinds pair_props scale sqrtQ p q).1.kind = p.kind := by
  simp only [stepPair]
  split
  · rfl
  · rfl

/-- The pair interaction never changes the second particle's kind. -/
theorem stepPair_kind_snd (wrap flat_force : Bool) (kinds : ℕ) (pair_props : List PairProps)
    (scale : Vec2) (sqrtQ : ℚ → ℚ) (p q : Particle) :
    (stepPair wrap flat_force kinds pair_props scale sqrtQ p q).2.kind = q.kind := by
  simp only [stepPair]
  split
  · rfl
  · rfl

/-- Integration never changes a particle's kind. -/
theorem integrate_kind (wrap : Bool) (friction : ℚ) (clip_size inv_scale : Vec2)
    (p : Particle) : (integrate wrap friction clip_size inv_scale p).kind = p.kind := by
  cases wrap
  · rfl
  · rfl

/-- Writing back two particles with the kinds read at the written indices
leaves the kind sequence of the list unchanged. -/
theorem map_kind_set_set (l : List Particle) (i j : ℕ) (a b : Particle)
    (ha : a.kind = (l.getD i Particle.zero).kind)
    (hb : b.kind = (l.getD j Particle.zero).kind) :
    ((l.set i a).set j b).map Particle.kind = l.map Particle.kind := by
  apply List.ext_getElem?
  intro n
  simp only [List.getElem?_map, List.getElem?_set, List.length_set]
  by_cases hjn : j = n
  · subst hjn
    by_cases hl : j < l.length
    · rw [List.getD_eq_getElem l _ hl] at hb
      simp [hl, hb, List.getElem?_eq_getElem hl]
    · simp [hl, List.getElem?_eq_none (le_of_not_lt hl)]
  · by_cases hin : i = n
    · subst hin
      by_cases hl : i < l.length
      · rw [List.getD_eq_getElem l _ hl] at ha
        simp [hjn, hl, ha, List.getElem?_eq_getElem hl]
      · simp [hjn, hl, List.getElem?_eq_none (le_of_not_lt hl)]
    · simp [hjn, hin]

/-- A fold whose step preserves the kind sequence preserves it overall. -/
theorem foldl_map_kind_eq {β : Type} (f : List Particle → β → List Particle)
    (H : ∀ acc x, (f acc x).map Particle.kind = acc.map Particle.kind) :
    ∀ (l : List β) (acc : List Particle),
      ((l.foldl f acc).map Particle.kind) = acc.map Particle.kind := by
  intro l
  induction l with
  | nil => intro acc; rfl
  | cons hd tl ih => intro acc; rw [List.foldl_cons, ih, H]

/-- Pass 1 (the pairwise force accumulation) preserves the kind sequence. -/
theorem pass1_map_kind (wrap flat_force : Bool) (kinds : ℕ) (pair_props : List PairProps)
    (scale : Vec2) (sqrtQ : ℚ → ℚ) (ps : List Particle) :
    (pass1 wrap flat_force kinds pair_props scale sqrtQ ps).map Particle.kind
      = ps.map Particle.kind := by
  rw [pass1]
  apply foldl_map_kind_eq
  intro acc i
  apply foldl_map_kind_eq
  intro acc2 j
  exact map_kind_set_set acc2 i j _ _
    (stepPair_kind_fst wrap flat_force kinds pair_props scale sqrtQ _ _)
    (stepPair_kind_snd wrap flat_force kinds pair_props scale sqrtQ _ _)

/-- The full tick preserves the kind sequence (kinds and list order). -/
theorem step_map_kind (sqrtQ : ℚ → ℚ) (width height : ℚ) (s : Sim) :
    (Sim.step sqrtQ width height s).particles.map Particle.kind
      = s.particles.map Particle.kind := by
  show (((pass1 s.wrap s.flat_force s.colors.length s.pair_props
      (0.5 * width, 0.5 * height) sqrtQ s.particles).map
        (integrate s.wrap s.friction
          (RADIUS * (2 / width), RADIUS * (2 / height)) (2 / width, 2 / height))).map
            Particle.kind) = s.particles.map Particle.kind
  rw [List.map_map]
  have hcomp : Particle.kind ∘ integrate s.wrap s.friction
      (RADIUS * (2 / width), RADIUS * (2 / height)) (2 / width, 2 / height)
      = Particle.kind := funext fun p => integrate_kind _ _ _ _ p
  rw [hcomp, pass1_map_kind]

/-- Sortedness by kind transfers along equal kind sequences. -/
theorem sorted_kindLe_iff (l : List Particle) :
    l.Sorted kindLe ↔ (l.map Particle.kind).Sorted (· ≤ ·) := by
  show l.Pairwise kindLe ↔ (l.map Particle.kind).Pairwise (· ≤ ·)
  rw [List.pairwise_map]
  exact Iff.rfl

/-- The sort used by `Sim::new` and `Sim::regenerate_particles` sorts by
kind. -/
theorem sortByKind_sorted (l : List Particle) : (sortByKind l).Sorted kindLe :=
  List.sorted_insertionSort kindLe l

end sim

/-- Pointwise-equal row functions produce the same flattened table. -/
theorem flatMap_congr_left {α β : Type} {l : List α} {f g : α → List β}
    (h : ∀ x ∈ l, f x = g x) : l.flatMap f = l.flatMap g := by
  induction l with
  | nil => rfl
  | cons hd tl ih =>
      rw [List.flatMap_cons, List.flatMap_cons, h hd (by simp),
        ih fun x hx => h x (by simp [hx])]

namespace univ

/-- The min-radius entry reads only the min-radius draws at in-range index
pairs. -/
theorem minRadiusAt_congr (e1 e2 : Entropy) (num i j : ℕ) (hi : i < num) (hj : j < num)
    (hminr : ∀ a b, a < num → b < num → e1.minr_distr a b = e2.minr_distr a b) :
    minRadiusAt e1 i j = minRadiusAt e2 i j := by
  rw [minRadiusAt, minRadiusAt]
  split
  · rw [minRadiusFresh, minRadiusFresh, hminr j i hj hi]
  · rw [minRadiusFresh, minRadiusFresh, hminr i j hi hj]

/-- The max-radius entry reads only the max- and min-radius draws at
in-range index pairs. -/
theorem maxRadiusAt_congr (e1 e2 : Entropy) (num i j : ℕ) (hi : i < num) (hj : j < num)
    (hminr : ∀ a b, a < num → b < num → e1.minr_distr a b = e2.minr_distr a b)
    (hmaxr : ∀ a b, a < num → b < num → e1.maxr_distr a b = e2.maxr_distr a b) :
    maxRadiusAt e1 i j = maxRadiusAt e2 i j := by
  rw [maxRadiusAt, maxRadiusAt]
  split
  · rw [maxRadiusFresh, maxRadiusFresh, hmaxr j i hj hi,
      minRadiusAt_congr e1 e2 num j i hj hi hminr]
  · rw [maxRadiusFresh, maxRadiusFresh, hmaxr i j hi hj,
      minRadiusAt_congr e1 e2 num i j hi hj hminr]

/-- The attraction entry reads only the attraction draw at its own index
pair. -/
theorem attractionAt_congr (e1 e2 : Entropy) (i j : ℕ)
    (h : e1.attr_distr i j = e2.attr_distr i j) :
    attractionAt e1 i j = attractionAt e2 i j := by
  rw [attractionAt, attractionAt, h]

end univ

/-!
Claim theorems.
-/

/-- C1: the consumer-side stream never yields a frame whose round tag
differs from the channel's current round.  After a `Seed` command bumped the
round away from `r = c.round`, any later successful poll delivers a frame
that was queued with a tag equal to the then-current round, which is
strictly larger than `r`; every queued frame with a stale tag (in particular
every frame tagged `r`) sitting in front of it is dropped, never
delivered. -/
theorem poll_next_round_invalidation (c : channel.StepChannel) (sd : univ.Seed)
    (evs : List channel.Event) (f : channel.Frame) (c₂ : channel.StepChannel)
    (hpoll : channel.pollNext (channel.applyEvents
        (channel.applyEvent c (.send (.seed sd))) evs) = (some f, c₂)) :
    c.round < (channel.applyEvents (channel.applyEvent c (.send (.seed sd))) evs).round
      ∧ ∃ pre rest,
        (channel.applyEvents (channel.applyEvent c (.send (.seed sd))) evs).rx
            = pre ++ ((channel.applyEvents (channel.applyEvent c (.send (.seed sd))) evs).round,
              f) :: rest
          ∧ (∀ t g, (t, g) ∈ pre →
              t ≠ (channel.applyEvents (channel.applyEvent c (.send (.seed sd))) evs).round)
          ∧ c₂ = ⟨(channel.applyEvents (channel.applyEvent c (.send (.seed sd))) evs).round,
              rest⟩ := by
  obtain ⟨pre, rest, hrx, hstale, hc2⟩ := channel.pollNext_spec _ f c₂ hpoll
  refine ⟨?_, pre, rest, hrx, hstale, hc2⟩
  have h1 : (channel.applyEvent c (.send (.seed sd))).round = c.round + 1 := by
    show (channel.startSend c (.seed sd)).round = c.round + 1
    rw [channel.startSend_seed]
  have h2 := channel.applyEvents_round_le evs (channel.applyEvent c (.send (.seed sd)))
  omega

/-- Witness for C1 at a concrete run: a frame of round 0 is queued, `Seed`
bumps the consumer round to 1, the worker then queues a round-1 frame, and
the next poll delivers the round-1 frame with the stale round-0 frame
gone. -/
theorem poll_next_round_invalidation_witness :
    (0 : ℕ) < (channel.applyEvents (channel.applyEvent ⟨0, [(0, [])]⟩
        (.send (.seed ⟨1, 0, 0, false⟩))) [.recv 1 []]).round
      ∧ ∃ pre rest,
        (channel.applyEvents (channel.applyEvent ⟨0, [(0, [])]⟩
            (.send (.seed ⟨1, 0, 0, false⟩))) [.recv 1 []]).rx
            = pre ++ ((channel.applyEvents (channel.applyEvent ⟨0, [(0, [])]⟩
                (.send (.seed ⟨1, 0, 0, false⟩))) [.recv 1 []]).round, ([] : channel.Frame))
                :: rest
          ∧ (∀ t g, (t, g) ∈ pre →
              t ≠ (channel.applyEvents (channel.applyEvent ⟨0, [(0, [])]⟩
                (.send (.seed ⟨1, 0, 0, false⟩))) [.recv 1 []]).round)
          ∧ (⟨1, []⟩ : channel.StepChannel)
              = ⟨(channel.applyEvents (channel.applyEvent ⟨0, [(0, [])]⟩
                  (.send (.seed ⟨1, 0, 0, false⟩))) [.recv 1 []]).round, rest⟩ :=
  poll_next_round_invalidation ⟨0, [(0, [])]⟩ ⟨1, 0, 0, false⟩ [.recv 1 []] [] ⟨1, []⟩
    (by decide)

/-- C9: in both producer loops the round counter is monotonically
non-decreasing; applying `Seed` or `RandomizeParticles` increments it by
exactly 1; applying `ToggleWrap` only flips the wrap flag and leaves the
round (and everything else) unchanged. -/
theorem worker_round_counter :
    (∀ (e : univ.Entropy) (s : worker.WorkerState) (sd : univ.Seed) (s' : worker.WorkerState),
        worker.runWorkerCmd e s (.seed sd) = some s' → s'.round = s.round + 1)
  ∧ (∀ (e : univ.Entropy) (s s' : worker.WorkerState),
        worker.runWorkerCmd e s .randomizeParticles = some s' → s'.round = s.round + 1)
  ∧ (∀ (e : univ.Entropy) (s : worker.WorkerState),
        worker.runWorkerCmd e s .toggleWrap
          = some ⟨s.round, { s.uni with wrap := !s.uni.wrap }⟩)
  ∧ (∀ (e : univ.Entropy) (s : worker.WorkerState) (cmd : channel.Command)
        (s' : worker.WorkerState),
        worker.runWorkerCmd e s cmd = some s' → s.round ≤ s'.round)
  ∧ (∀ (e : univ.Entropy) (stepU : univ.Universe → univ.Universe) (s : worker.WorkerState)
        (sd : univ.Seed) (s' : worker.WorkerState),
        worker.wasmWorkerCmd e stepU s (.seed sd) = some s' → s'.round = s.round + 1)
  ∧ (∀ (e : univ.Entropy) (stepU : univ.Universe → univ.Universe) (s s' : worker.WorkerState),
        worker.wasmWorkerCmd e stepU s .randomizeParticles = some s' → s'.round = s.round + 1)
  ∧ (∀ (e : univ.Entropy) (stepU : univ.Universe → univ.Universe) (s : worker.WorkerState),
        worker.wasmWorkerCmd e stepU s .toggleWrap
          = some ⟨s.round, { s.uni with wrap := !s.uni.wrap }⟩)
  ∧ (∀ (e : univ.Entropy) (stepU : univ.Universe → univ.Universe) (s : worker.WorkerState)
        (cmd : channel.Command) (s' : worker.WorkerState),
        worker.wasmWorkerCmd e stepU s cmd = some s' → s.round ≤ s'.round) := by
  refine ⟨?_, ?_, fun e s => rfl, ?_, ?_, ?_, fun e stepU s => rfl, ?_⟩
  · intro e s sd s' h
    obtain ⟨u, _, heq⟩ := Option.map_eq_some'.mp h
    rw [← heq]
  · intro e s s' h
    obtain ⟨u, _, heq⟩ := Option.map_eq_some'.mp h
    rw [← heq]
  · intro e s cmd s' h
    cases cmd with
    | resize size => rw [← Option.some.inj h]; exact Nat.le_succ _
    | seed sd =>
        obtain ⟨u, _, heq⟩ := Option.map_eq_some'.mp h
        rw [← heq]; exact Nat.le_succ _
    | toggleWrap => rw [← Option.some.inj h]
    | randomizeParticles =>
        obtain ⟨u, _, heq⟩ := Option.map_eq_some'.mp h
        rw [← heq]; exact Nat.le_succ _
    | step => rw [← Option.some.inj h]
  · intro e stepU s sd s' h
    obtain ⟨u, _, heq⟩ := Option.map_eq_some'.mp h
    rw [← heq]
  · intro e stepU s s' h
    obtain ⟨u, _, heq⟩ := Option.map_eq_some'.mp h
    rw [← heq]
  · intro e stepU s cmd s' h
    cases cmd with
    | resize size => rw [← Option.some.inj h]
    | seed sd =>
        obtain ⟨u, _, heq⟩ := Option.map_eq_some'.mp h
        rw [← heq]; exact Nat.le_succ _
    | toggleWrap => rw [← Option.some.inj h]
    | randomizeParticles =>
        obtain ⟨u, _, heq⟩ := Option.map_eq_some'.mp h
        rw [← heq]; exact Nat.le_succ _
    | step => rw [← Option.some.inj h]

/-- Witness for C9 at a concrete worker state: seeding one particle type
succeeds and bumps the round from 0 to 1. -/
theorem worker_round_counter_witness :
    worker.runWorkerCmd
        ⟨fun _ _ => 0, fun _ _ => 0, fun _ _ => 0, fun _ => 0, fun _ => 0, fun _ => 0⟩
        ⟨0, univ.Universe.new (1, 1)⟩ (.seed ⟨1, 0, 0, false⟩)
        = some ⟨1, ⟨(1, 1), false, false, 0, [(0, 1, 1 / 2)], [[0]], [[10]], [[10]], []⟩⟩
      ∧ (⟨1, ⟨(1, 1), false, false, 0, [(0, 1, 1 / 2)], [[0]], [[10]], [[10]],
          []⟩⟩ : worker.WorkerState).round
        = (⟨0, univ.Universe.new (1, 1)⟩ : worker.WorkerState).round + 1 := by
  have h : worker.runWorkerCmd
      ⟨fun _ _ => 0, fun _ _ => 0, fun _ _ => 0, fun _ => 0, fun _ => 0, fun _ => 0⟩
      ⟨0, univ.Universe.new (1, 1)⟩ (.seed ⟨1, 0, 0, false⟩)
      = some ⟨1, ⟨(1, 1), false, false, 0, [(0, 1, 1 / 2)], [[0]], [[10]], [[10]], []⟩⟩ := by
    simp only [worker.runWorkerCmd, univ.Universe.seed, univ.Universe.seedTypes,
      univ.Universe.randomizeParticlesInner, univ.Universe.new,
      List.range_succ, List.range_zero]
    norm_num [univ.colorAt, univ.attractionAt, univ.minRadiusAt, univ.minRadiusFresh,
      univ.maxRadiusAt, univ.maxRadiusFresh, univ.DIAMETER]
  exact ⟨h, worker_round_counter.1
    ⟨fun _ _ => 0, fun _ _ => 0, fun _ _ => 0, fun _ => 0, fun _ => 0, fun _ => 0⟩
    ⟨0, univ.Universe.new (1, 1)⟩ ⟨1, 0, 0, false⟩
    ⟨1, ⟨(1, 1), false, false, 0, [(0, 1, 1 / 2)], [[0]], [[10]], [[10]], []⟩⟩ h⟩

/-- C4: a pair whose squared distance (after wrap correction and space
rescaling) falls below ε = 0.01 or above the squared influence radius
contributes no force — both particles come out exactly as they went in — and
whenever the pair is not rejected the squared distance is at least ε, so any
number whose square it is (in particular the square root the code divides
by) is nonzero. -/
theorem step_pair_guard (wrap flat_force : Bool) (kinds : ℕ)
    (pair_props : List sim.PairProps) (scale : Vec2) (sqrtQ : ℚ → ℚ)
    (p q : sim.Particle) :
    (sim.pairDist2 wrap scale p q
          > (pair_props.getD (p.kind * kinds + q.kind) sim.PairProps.zero).influence_radius_sq
        ∨ sim.pairDist2 wrap scale p q < 0.01 →
      sim.stepPair wrap flat_force kinds pair_props scale sqrtQ p q = (p, q))
    ∧ (¬(sim.pairDist2 wrap scale p q
          > (pair_props.getD (p.kind * kinds + q.kind) sim.PairProps.zero).influence_radius_sq
        ∨ sim.pairDist2 wrap scale p q < 0.01) →
      1 / 100 ≤ sim.pairDist2 wrap scale p q
        ∧ ∀ d : ℚ, d * d = sim.pairDist2 wrap scale p q → d ≠ 0) := by
  constructor
  · exact sim.stepPair_reject wrap flat_force kinds pair_props scale sqrtQ p q
  · intro h
    have hle : ¬sim.pairDist2 wrap scale p q < 0.01 := fun hlt => h (Or.inr hlt)
    have h1 : (0.01 : ℚ) = 1 / 100 := by norm_num
    have h2 : 1 / 100 ≤ sim.pairDist2 wrap scale p q := by
      rw [← h1]; exact not_lt.mp hle
    refine ⟨h2, fun d hd hd0 => ?_⟩
    rw [hd0, mul_zero] at hd
    rw [← hd] at h2
    norm_num at h2

/-- Witness for C4: with the table entry `mkPairProps 0 3 4` a pair at
scaled distance 5 (squared distance 25 > 16) is rejected unchanged, while
the same pair against `mkPairProps 0 10 20` passes the guard, whose lower
bound ε then makes the square root nonzero. -/
theorem step_pair_guard_witness :
    sim.stepPair false false 1 [sim.mkPairProps 0 3 4] (10, 10) (fun _ => 5)
        ⟨(0, 0), (0, 0), 0⟩ ⟨(3 / 10, 4 / 10), (0, 0), 0⟩
      = (⟨(0, 0), (0, 0), 0⟩, ⟨(3 / 10, 4 / 10), (0, 0), 0⟩)
    ∧ (1 / 100 ≤ sim.pairDist2 false (10, 10) ⟨(0, 0), (0, 0), 0⟩ ⟨(3 / 10, 4 / 10), (0, 0), 0⟩
        ∧ ∀ d : ℚ,
          d * d = sim.pairDist2 false (10, 10) ⟨(0, 0), (0, 0), 0⟩ ⟨(3 / 10, 4 / 10), (0, 0), 0⟩
            → d ≠ 0) :=
  ⟨(step_pair_guard false false 1 [sim.mkPairProps 0 3 4] (10, 10) (fun _ => 5)
      ⟨(0, 0), (0, 0), 0⟩ ⟨(3 / 10, 4 / 10), (0, 0), 0⟩).1
      (by
        left
        norm_num [sim.pairDist2, sim.pairDelta, Prod.mk_sub_mk, sim.mkPairProps,
          List.getD_cons_zero]),
    (step_pair_guard false false 1 [sim.mkPairProps 0 10 20] (10, 10) (fun _ => 5)
      ⟨(0, 0), (0, 0), 0⟩ ⟨(3 / 10, 4 / 10), (0, 0), 0⟩).2
      (by
        norm_num [sim.pairDist2, sim.pairDelta, Prod.mk_sub_mk, sim.mkPairProps,
          List.getD_cons_zero])⟩

/-- C5: in reflect mode (wrap disabled), per axis: when the particle radius
crosses a boundary the position is clamped to the boundary minus the radius
and the (post-friction) velocity component is negated exactly once; with no
boundary contact neither a clamp nor a sign flip happens.  The two branches
of each axis form an if/else-if chain, so a double flip is impossible. -/
theorem reflect_boundary (friction : ℚ) (clip_size inv_scale : Vec2) (p : sim.Particle) :
    (p.pos.1 + p.vel.1 * inv_scale.1 + clip_size.1 > 1 →
      (sim.integrate false friction clip_size inv_scale p).pos.1 = 1 - clip_size.1
        ∧ (sim.integrate false friction clip_size inv_scale p).vel.1
          = -(p.vel.1 * (1 - friction)))
    ∧ (¬(p.pos.1 + p.vel.1 * inv_scale.1 + clip_size.1 > 1) →
        p.pos.1 + p.vel.1 * inv_scale.1 - clip_size.1 < -1 →
      (sim.integrate false friction clip_size inv_scale p).pos.1 = -1 + clip_size.1
        ∧ (sim.integrate false friction clip_size inv_scale p).vel.1
          = -(p.vel.1 * (1 - friction)))
    ∧ (¬(p.pos.1 + p.vel.1 * inv_scale.1 + clip_size.1 > 1) →
        ¬(p.pos.1 + p.vel.1 * inv_scale.1 - clip_size.1 < -1) →
      (sim.integrate false friction clip_size inv_scale p).pos.1
          = p.pos.1 + p.vel.1 * inv_scale.1
        ∧ (sim.integrate false friction clip_size inv_scale p).vel.1
          = p.vel.1 * (1 - friction))
    ∧ (p.pos.2 + p.vel.2 * inv_scale.2 + clip_size.2 > 1 →
      (sim.integrate false friction clip_size inv_scale p).pos.2 = 1 - clip_size.2
        ∧ (sim.integrate false friction clip_size inv_scale p).vel.2
          = -(p.vel.2 * (1 - friction)))
    ∧ (¬(p.pos.2 + p.vel.2 * inv_scale.2 + clip_size.2 > 1) →
        p.pos.2 + p.vel.2 * inv_scale.2 - clip_size.2 < -1 →
      (sim.integrate false friction clip_size inv_scale p).pos.2 = -1 + clip_size.2
        ∧ (sim.integrate false friction clip_size inv_scale p).vel.2
          = -(p.vel.2 * (1 - friction)))
    ∧ (¬(p.pos.2 + p.vel.2 * inv_scale.2 + clip_size.2 > 1) →
        ¬(p.pos.2 + p.vel.2 * inv_scale.2 - clip_size.2 < -1) →
      (sim.integrate false friction clip_size inv_scale p).pos.2
          = p.pos.2 + p.vel.2 * inv_scale.2
        ∧ (sim.integrate false friction clip_size inv_scale p).vel.2
          = p.vel.2 * (1 - friction)) := by
  refine ⟨fun h => ⟨?_, ?_⟩, fun h1 h2 => ⟨?_, ?_⟩, fun h1 h2 => ⟨?_, ?_⟩,
    fun h => ⟨?_, ?_⟩, fun h1 h2 => ⟨?_, ?_⟩, fun h1 h2 => ⟨?_, ?_⟩⟩
  · show (sim.reflectAxis clip_size.1 (p.pos.1 + p.vel.1 * inv_scale.1)
      (p.vel.1 * (1 - friction))).1 = 1 - clip_size.1
    rw [sim.reflectAxis_high _ _ _ h]
  · show (sim.reflectAxis clip_size.1 (p.pos.1 + p.vel.1 * inv_scale.1)
      (p.vel.1 * (1 - friction))).2 = -(p.vel.1 * (1 - friction))
    rw [sim.reflectAxis_high _ _ _ h]
  · show (sim.reflectAxis clip_size.1 (p.pos.1 + p.vel.1 * inv_scale.1)
      (p.vel.1 * (1 - friction))).1 = -1 + clip_size.1
    rw [sim.reflectAxis_low _ _ _ h1 h2]
  · show (sim.reflectAxis clip_size.1 (p.pos.1 + p.vel.1 * inv_scale.1)
      (p.vel.1 * (1 - friction))).2 = -(p.vel.1 * (1 - friction))
    rw [sim.reflectAxis_low _ _ _ h1 h2]
  · show (sim.reflectAxis clip_size.1 (p.pos.1 + p.vel.1 * inv_scale.1)
      (p.vel.1 * (1 - friction))).1 = p.pos.1 + p.vel.1 * inv_scale.1
    rw [sim.reflectAxis_none _ _ _ h1 h2]
  · show (sim.reflectAxis clip_size.1 (p.pos.1 + p.vel.1 * inv_scale.1)
      (p.vel.1 * (1 - friction))).2 = p.vel.1 * (1 - friction)
    rw [sim.reflectAxis_none _ _ _ h1 h2]
  · show (sim.reflectAxis clip_size.2 (p.pos.2 + p.vel.2 * inv_scale.2)
      (p.vel.2 * (1 - friction))).1 = 1 - clip_size.2
    rw [sim.reflectAxis_high _ _ _ h]
  · show (sim.reflectAxis clip_size.2 (p.pos.2 + p.vel.2 * inv_scale.2)
      (p.vel.2 * (1 - friction))).2 = -(p.vel.2 * (1 - friction))
    rw [sim.reflectAxis_high _ _ _ h]
  · show (sim.reflectAxis clip_size.2 (p.pos.2 + p.vel.2 * inv_scale.2)
      (p.vel.2 * (1 - friction))).1 = -1 + clip_size.2
    rw [sim.reflectAxis_low _ _ _ h1 h2]
  · show (sim.reflectAxis clip_size.2 (p.pos.2 + p.vel.2 * inv_scale.2)
      (p.vel.2 * (1 - friction))).2 = -(p.vel.2 * (1 - friction))
    rw [sim.reflectAxis_low _ _ _ h1 h2]
  · show (sim.reflectAxis clip_size.2 (p.pos.2 + p.vel.2 * inv_scale.2)
      (p.vel.2 * (1 - friction))).1 = p.pos.2 + p.vel.2 * inv_scale.2
    rw [sim.reflectAxis_none _ _ _ h1 h2]
  · show (sim.reflectAxis clip_size.2 (p.pos.2 + p.vel.2 * inv_scale.2)
      (p.vel.2 * (1 - friction))).2 = p.vel.2 * (1 - friction)
    rw [sim.reflectAxis_none _ _ _ h1 h2]

/-- Witness for C5: a particle whose x radius crosses the right boundary is
clamped to `1 - clip` with its x velocity negated once, and its y axis, with
no contact, passes through. -/
theorem reflect_boundary_witness :
    ((sim.integrate false 0 (1 / 10, 1 / 10) (1, 1)
        ⟨(19 / 20, 0), (1 / 5, 0), 0⟩).pos.1 = 1 - (1 / 10 : ℚ)
      ∧ (sim.integrate false 0 (1 / 10, 1 / 10) (1, 1)
        ⟨(19 / 20, 0), (1 / 5, 0), 0⟩).vel.1 = -((1 / 5 : ℚ) * (1 - 0)))
    ∧ ((sim.integrate false 0 (1 / 10, 1 / 10) (1, 1)
        ⟨(19 / 20, 0), (1 / 5, 0), 0⟩).pos.2 = (0 : ℚ) + 0 * 1
      ∧ (sim.integrate false 0 (1 / 10, 1 / 10) (1, 1)
        ⟨(19 / 20, 0), (1 / 5, 0), 0⟩).vel.2 = (0 : ℚ) * (1 - 0)) :=
  ⟨(reflect_boundary 0 (1 / 10, 1 / 10) (1, 1) ⟨(19 / 20, 0), (1 / 5, 0), 0⟩).1 (by norm_num),
    (reflect_boundary 0 (1 / 10, 1 / 10) (1, 1) ⟨(19 / 20, 0), (1 / 5, 0), 0⟩).2.2.2.2.2
      (by norm_num) (by norm_num)⟩

/-- C6: in wrap mode, boundary resolution only translates each position axis
by an integer multiple of the clip-space extent 2 (for a particle on or off
the boundary alike) and leaves the velocity exactly as friction scaling
produced it — no velocity component's sign is ever inverted by the
boundary. -/
theorem wrap_boundary (friction : ℚ) (clip_size inv_scale : Vec2) (p : sim.Particle) :
    (sim.integrate true friction clip_size inv_scale p).vel
        = (p.vel.1 * (1 - friction), p.vel.2 * (1 - friction))
      ∧ (∃ k : ℤ, (sim.integrate true friction clip_size inv_scale p).pos.1
          = p.pos.1 + p.vel.1 * inv_scale.1 + 2 * k)
      ∧ (∃ k : ℤ, (sim.integrate true friction clip_size inv_scale p).pos.2
          = p.pos.2 + p.vel.2 * inv_scale.2 + 2 * k) := by
  refine ⟨rfl, ?_, ?_⟩
  · show ∃ k : ℤ, sim.wrapAxis (p.pos.1 + p.vel.1 * inv_scale.1)
      = p.pos.1 + p.vel.1 * inv_scale.1 + 2 * k
    exact sim.wrapAxis_sub_mul _
  · show ∃ k : ℤ, sim.wrapAxis (p.pos.2 + p.vel.2 * inv_scale.2)
      = p.pos.2 + p.vel.2 * inv_scale.2 + 2 * k
    exact sim.wrapAxis_sub_mul _

/-- C2: for a pair passing the distance test, when `dist < repel_distance`
both particles receive the identical repulsion magnitude
`R_SMOOTH * repel_distance * (1/(repel_distance+R_SMOOTH) -
1/(dist+R_SMOOTH))`; otherwise particle `i` receives
`attraction(kind_i, kind_j)` and particle `j` receives
`attraction(kind_j, kind_i)`, both multiplied (unless `flat_force` is set)
by the same taper coefficient `1 - |dist - peak| / half_base` with
`peak = (repel_distance + influence_radius)/2` and
`half_base = (influence_radius - repel_distance)/2`, applied along
`direction = delta / dist` with opposite signs. -/
theorem pair_force_formulas (wrap flat_force : Bool) (kinds : ℕ)
    (pair_props : List sim.PairProps) (scale : Vec2) (sqrtQ : ℚ → ℚ)
    (p q : sim.Particle) (a R M : ℚ)
    (hpp : pair_props.getD (p.kind * kinds + q.kind) sim.PairProps.zero
      = sim.mkPairProps a R M)
    (hguard : ¬(sim.pairDist2 wrap scale p q > M * M ∨ sim.pairDist2 wrap scale p q < 0.01)) :
    (sqrtQ (sim.pairDist2 wrap scale p q) < R →
      sim.stepPair wrap flat_force kinds pair_props scale sqrtQ p q =
        (let d := sqrtQ (sim.pairDist2 wrap scale p q)
         let dir : Vec2 := ((sim.pairDelta wrap scale p q).1 / d,
          (sim.pairDelta wrap scale p q).2 / d)
         let f := sim.specRepulsion R d
         ({ p with vel := (p.vel.1 + f * dir.1, p.vel.2 + f * dir.2) },
          { q with vel := (q.vel.1 - f * dir.1, q.vel.2 - f * dir.2) })))
    ∧ (¬sqrtQ (sim.pairDist2 wrap scale p q) < R →
      sim.stepPair wrap flat_force kinds pair_props scale sqrtQ p q =
        (let d := sqrtQ (sim.pairDist2 wrap scale p q)
         let dir : Vec2 := ((sim.pairDelta wrap scale p q).1 / d,
          (sim.pairDelta wrap scale p q).2 / d)
         let c := if flat_force then 1 else sim.specTaper R M d
         let a2 := (pair_props.getD (q.kind * kinds + p.kind) sim.PairProps.zero).attraction
         ({ p with vel := (p.vel.1 + a * c * dir.1, p.vel.2 + a * c * dir.2) },
          { q with vel := (q.vel.1 - a2 * c * dir.1, q.vel.2 - a2 * c * dir.2) }))) :=
  ⟨fun hd => sim.stepPair_repel wrap flat_force kinds pair_props scale sqrtQ p q a R M
      hpp hguard hd,
    fun hd => sim.stepPair_attract wrap flat_force kinds pair_props scale sqrtQ p q a R M
      hpp hguard hd⟩

/-- Witness for C2 at a concrete repelling pair: table entry
`mkPairProps (1/2) 10 20`, scaled delta (3, 4), distance 5 < 10, so both
particles receive the identical magnitude `-25/21` along `(3/5, 4/5)` with
opposite signs. -/
theorem pair_force_formulas_witness :
    sim.stepPair false false 1 [sim.mkPairProps (1 / 2) 10 20] (10, 10) (fun _ => 5)
        ⟨(0, 0), (0, 0), 0⟩ ⟨(3 / 10, 4 / 10), (0, 0), 0⟩
      = (⟨(0, 0), (-(5 / 7), -(20 / 21)), 0⟩, ⟨(3 / 10, 4 / 10), (5 / 7, 20 / 21), 0⟩) := by
  have h := (pair_force_formulas false false 1 [sim.mkPairProps (1 / 2) 10 20] (10, 10)
    (fun _ => 5) ⟨(0, 0), (0, 0), 0⟩ ⟨(3 / 10, 4 / 10), (0, 0), 0⟩ (1 / 2) 10 20
    (by norm_num [List.getD_cons_zero])
    (by norm_num [sim.pairDist2, sim.pairDelta, Prod.mk_sub_mk])).1
    (by norm_num [sim.pairDist2, sim.pairDelta, Prod.mk_sub_mk])
  refine h.trans ?_
  norm_num [sim.pairDist2, sim.pairDelta, sim.specRepulsion, sim.R_SMOOTH, Prod.mk_sub_mk,
    sim.Particle.mk.injEq, Prod.mk.injEq]

/-- C10: the particle list is always sorted by kind: `Sim::new` and
`Sim::regenerate_particles` both sort the freshly generated particles by
non-decreasing kind index, and `Sim::step` preserves the kind sequence
(each particle's kind and the list order), so sortedness is an invariant of
every operation. -/
theorem particles_sorted_by_kind :
    (∀ (st : sim.Settings) (rng : sim.Rng) (s : sim.Sim),
        sim.Sim.new st rng = some s → s.particles.Sorted sim.kindLe)
  ∧ (∀ (rng : sim.Rng) (s s' : sim.Sim),
        sim.Sim.regenerateParticles rng s = some s' → s'.particles.Sorted sim.kindLe)
  ∧ (∀ (sqrtQ : ℚ → ℚ) (width height : ℚ) (s : sim.Sim),
        (sim.Sim.step sqrtQ width height s).particles.map sim.Particle.kind
          = s.particles.map sim.Particle.kind)
  ∧ (∀ (sqrtQ : ℚ → ℚ) (width height : ℚ) (s : sim.Sim),
        s.particles.Sorted sim.kindLe →
          (sim.Sim.step sqrtQ width height s).particles.Sorted sim.kindLe) := by
  refine ⟨?_, ?_, sim.step_map_kind, ?_⟩
  · intro st rng s h
    obtain ⟨ps, _, heq⟩ := Option.map_eq_some'.mp h
    rw [← heq]
    exact sim.sortByKind_sorted ps
  · intro rng s s' h
    obtain ⟨ps, _, heq⟩ := Option.map_eq_some'.mp h
    rw [← heq]
    exact sim.sortByKind_sorted ps
  · intro sqrtQ width height s hs
    rw [sim.sorted_kindLe_iff, sim.step_map_kind]
    exact (sim.sorted_kindLe_iff s.particles).mp hs

/-- Witness for C10: a one-kind, one-particle configuration generates
successfully and the resulting particle list is sorted by kind. -/
theorem particles_sorted_by_kind_witness :
    sim.Sim.new ⟨1, 1, 0, false⟩
        ⟨fun _ _ => 0, fun _ _ => 0, fun _ _ => 0, fun _ => 0, fun _ => 0, fun _ => 0⟩
      = some ⟨false, false, 0, [(0, 1, 1 / 2)], [sim.mkPairProps 0 10 10],
          [⟨(0, 0), (0, 0), 0⟩]⟩
    ∧ ([⟨(0, 0), (0, 0), 0⟩] : List sim.Particle).Sorted sim.kindLe := by
  have h : sim.Sim.new ⟨1, 1, 0, false⟩
      ⟨fun _ _ => 0, fun _ _ => 0, fun _ _ => 0, fun _ => 0, fun _ => 0, fun _ => 0⟩
      = some ⟨false, false, 0, [(0, 1, 1 / 2)], [sim.mkPairProps 0 10 10],
          [⟨(0, 0), (0, 0), 0⟩]⟩ := by
    have hr1 : List.range 1 = [0] := rfl
    simp only [sim.Sim.new, hr1]
    norm_num [sim.Particle.generate, sim.buildColors, sim.colorAt,
      sim.buildProps, sim.buildRow, sim.freshRadii, sim.attractionAt, sim.mkPairProps,
      sim.sortByKind, sim.DIAMETER, sim.RADIUS, hr1, List.mapM_cons,
      List.mapM_nil, List.insertionSort, List.orderedInsert, List.foldl_cons,
      List.foldl_nil]
    exact ⟨[⟨(0, 0), (0, 0), 0⟩], rfl, rfl⟩
  exact ⟨h, by
    have hs := particles_sorted_by_kind.1 ⟨1, 1, 0, false⟩
      ⟨fun _ _ => 0, fun _ _ => 0, fun _ _ => 0, fun _ => 0, fun _ => 0, fun _ => 0⟩
      ⟨false, false, 0, [(0, 1, 1 / 2)], [sim.mkPairProps 0 10 10], [⟨(0, 0), (0, 0), 0⟩]⟩ h
    exact hs⟩

/-- The closed-form radii of the `Sim::new` table satisfy
`DIAMETER ≤ repel_distance ≤ influence_radius`, with the diagonal repel
distance exactly `DIAMETER`. -/
theorem radiiAt_invariants (rng : sim.Rng) (i j : ℕ) :
    sim.DIAMETER ≤ (sim.radiiAt rng i j).1
      ∧ (sim.radiiAt rng i j).1 ≤ (sim.radiiAt rng i j).2
      ∧ (i = j → (sim.radiiAt rng i j).1 = sim.DIAMETER) := by
  by_cases hji : j < i
  · rw [sim.radiiAt, if_pos hji]
    obtain ⟨h1, h2, _⟩ := sim.freshRadii_invariants rng j i
    exact ⟨h1, h2, fun hij => absurd hij (by omega)⟩
  · rw [sim.radiiAt, if_neg hji]
    exact sim.freshRadii_invariants rng i j

/-- C3 (amended): the pairwise table of `Sim::new` (sim.rs) satisfies every
invariant of the claim — `0 ≤ repel_distance`, the off-diagonal clamp
`DIAMETER ≤ repel_distance`, `repel_distance ≤ influence_radius`, symmetry
of both radii in the kind pair, and `repel_distance = DIAMETER` exactly on
the diagonal.  For `ParticleKinds::random` (kinds.rs), whose `j ≤ i` branch
stores the raw repel-distance sample without the diameter clamp, only
`repel_distance ≤ influence_radius` and the exact diagonal survive. -/
theorem pair_table_invariants_amended :
    (∀ (K : ℕ) (rng : sim.Rng) (i j : ℕ), i < K → j < K →
      0 ≤ ((sim.buildProps K rng).getD (i * K + j) sim.PairProps.zero).repel_distance
      ∧ sim.DIAMETER
          ≤ ((sim.buildProps K rng).getD (i * K + j) sim.PairProps.zero).repel_distance
      ∧ ((sim.buildProps K rng).getD (i * K + j) sim.PairProps.zero).repel_distance
          ≤ ((sim.buildProps K rng).getD (i * K + j) sim.PairProps.zero).influence_radius
      ∧ ((sim.buildProps K rng).getD (i * K + j) sim.PairProps.zero).repel_distance
          = ((sim.buildProps K rng).getD (j * K + i) sim.PairProps.zero).repel_distance
      ∧ ((sim.buildProps K rng).getD (i * K + j) sim.PairProps.zero).influence_radius
          = ((sim.buildProps K rng).getD (j * K + i) sim.PairProps.zero).influence_radius
      ∧ (i = j →
          ((sim.buildProps K rng).getD (i * K + j) sim.PairProps.zero).repel_distance
            = sim.DIAMETER))
  ∧ (∀ (st : sim.Settings) (rng : sim.Rng) (i j : ℕ), i < st.kinds → j ≤ i →
      ((kinds.ParticleKinds.random st rng).symmetric_properties.getD (i * (i + 1) / 2 + j)
          kinds.SymmetricProperties.zero).repel_distance
        ≤ ((kinds.ParticleKinds.random st rng).symmetric_properties.getD (i * (i + 1) / 2 + j)
          kinds.SymmetricProperties.zero).influence_radius
      ∧ (i = j →
        ((kinds.ParticleKinds.random st rng).symmetric_properties.getD (i * (i + 1) / 2 + j)
          kinds.SymmetricProperties.zero).repel_distance = kinds.DIAMETER)) := by
  constructor
  · intro K rng i j hi hj
    rw [sim.buildProps_getD K rng hi hj, sim.buildProps_getD K rng hj hi]
    obtain ⟨h1, h2, h3⟩ := radiiAt_invariants rng i j
    have hsym := sim.radiiAt_symm rng i j
    have hd : (0 : ℚ) ≤ sim.DIAMETER := by norm_num [sim.DIAMETER, sim.RADIUS]
    refine ⟨le_trans hd h1, h1, h2, ?_, ?_, h3⟩
    · show (sim.radiiAt rng i j).1 = (sim.radiiAt rng j i).1
      rw [hsym]
    · show (sim.radiiAt rng i j).2 = (sim.radiiAt rng j i).2
      rw [hsym]
  · intro st rng i j hi hj
    rw [kinds.random_symProps_getD st rng i j hi hj]
    exact kinds.symPropsAt_invariants rng i j

/-- Counterexample for C3 as stated: `ParticleKinds::random` (kinds.rs, a
cited source of the claim) does not clamp the off-diagonal repel-distance
sample.  With two kinds and a repel-distance stream sampling `-1`, the
generated table entry for the kind pair `(1, 0)` has
`repel_distance = -1`, violating both `repel_distance ≥ 0` and the claimed
clamp to at least the diameter. -/
theorem pair_table_counterexample :
    ((kinds.ParticleKinds.random ⟨0, 2, 0, false⟩
        ⟨fun _ _ => 0, fun _ _ => -1, fun _ _ => 0, fun _ => 0, fun _ => 0, fun _ => 0⟩
      ).symmetric_properties.getD (1 * (1 + 1) / 2 + 0)
        kinds.SymmetricProperties.zero).repel_distance < 0
    ∧ ((kinds.ParticleKinds.random ⟨0, 2, 0, false⟩
        ⟨fun _ _ => 0, fun _ _ => -1, fun _ _ => 0, fun _ => 0, fun _ => 0, fun _ => 0⟩
      ).symmetric_properties.getD (1 * (1 + 1) / 2 + 0)
        kinds.SymmetricProperties.zero).repel_distance < kinds.DIAMETER := by
  have h := kinds.random_symProps_getD ⟨0, 2, 0, false⟩
    ⟨fun _ _ => 0, fun _ _ => -1, fun _ _ => 0, fun _ => 0, fun _ => 0, fun _ => 0⟩
    1 0 (by norm_num) (by norm_num)
  rw [h, kinds.symPropsAt_repel]
  norm_num [kinds.DIAMETER]

/-- Witness for the amended C3 at a concrete one-kind table. -/
theorem pair_table_invariants_witness :
    0 ≤ ((sim.buildProps 1
        ⟨fun _ _ => 0, fun _ _ => 0, fun _ _ => 0, fun _ => 0, fun _ => 0, fun _ => 0⟩).getD
          (0 * 1 + 0) sim.PairProps.zero).repel_distance
    ∧ sim.DIAMETER ≤ ((sim.buildProps 1
        ⟨fun _ _ => 0, fun _ _ => 0, fun _ _ => 0, fun _ => 0, fun _ => 0, fun _ => 0⟩).getD
          (0 * 1 + 0) sim.PairProps.zero).repel_distance
    ∧ ((sim.buildProps 1
        ⟨fun _ _ => 0, fun _ _ => 0, fun _ _ => 0, fun _ => 0, fun _ => 0, fun _ => 0⟩).getD
          (0 * 1 + 0) sim.PairProps.zero).repel_distance
      ≤ ((sim.buildProps 1
        ⟨fun _ _ => 0, fun _ _ => 0, fun _ _ => 0, fun _ => 0, fun _ => 0, fun _ => 0⟩).getD
          (0 * 1 + 0) sim.PairProps.zero).influence_radius
    ∧ ((sim.buildProps 1
        ⟨fun _ _ => 0, fun _ _ => 0, fun _ _ => 0, fun _ => 0, fun _ => 0, fun _ => 0⟩).getD
          (0 * 1 + 0) sim.PairProps.zero).repel_distance
      = ((sim.buildProps 1
        ⟨fun _ _ => 0, fun _ _ => 0, fun _ _ => 0, fun _ => 0, fun _ => 0, fun _ => 0⟩).getD
          (0 * 1 + 0) sim.PairProps.zero).repel_distance
    ∧ ((sim.buildProps 1
        ⟨fun _ _ => 0, fun _ _ => 0, fun _ _ => 0, fun _ => 0, fun _ => 0, fun _ => 0⟩).getD
          (0 * 1 + 0) sim.PairProps.zero).influence_radius
      = ((sim.buildProps 1
        ⟨fun _ _ => 0, fun _ _ => 0, fun _ _ => 0, fun _ => 0, fun _ => 0, fun _ => 0⟩).getD
          (0 * 1 + 0) sim.PairProps.zero).influence_radius
    ∧ ((0 : ℕ) = 0 →
      ((sim.buildProps 1
        ⟨fun _ _ => 0, fun _ _ => 0, fun _ _ => 0, fun _ => 0, fun _ => 0, fun _ => 0⟩).getD
          (0 * 1 + 0) sim.PairProps.zero).repel_distance = sim.DIAMETER) :=
  pair_table_invariants_amended.1 1
    ⟨fun _ _ => 0, fun _ _ => 0, fun _ _ => 0, fun _ => 0, fun _ => 0, fun _ => 0⟩ 0 0
    (by norm_num) (by norm_num)

/-- C7: table generation is a deterministic function of the settings and the
stream of sampled values: two generation runs whose streams agree on every
draw the generator consumes (all index pairs below the kind count) produce
bit-for-bit identical colours, attraction tables and pairwise-property
tables.  This holds for `ParticleKinds::random` (kinds.rs) and for
`Universe::seed_types` (universe.rs, whose `OsRng` entropy is the explicit
stream input of the model). -/
theorem table_generation_deterministic :
    (∀ (st : sim.Settings) (r1 r2 : sim.Rng),
        (∀ i j, i < st.kinds → j < st.kinds →
          r1.attraction_distr i j = r2.attraction_distr i j) →
        (∀ i j, i < st.kinds → j < st.kinds →
          r1.repel_distance_distr i j = r2.repel_distance_distr i j) →
        (∀ i j, i < st.kinds → j < st.kinds →
          r1.influence_radius_distr i j = r2.influence_radius_distr i j) →
        kinds.ParticleKinds.random st r1 = kinds.ParticleKinds.random st r2)
  ∧ (∀ (num : ℕ) (e1 e2 : univ.Entropy) (u : univ.Universe),
        (∀ i j, i < num → j < num → e1.attr_distr i j = e2.attr_distr i j) →
        (∀ i j, i < num → j < num → e1.minr_distr i j = e2.minr_distr i j) →
        (∀ i j, i < num → j < num → e1.maxr_distr i j = e2.maxr_distr i j) →
        univ.Universe.seedTypes num e1 u = univ.Universe.seedTypes num e2 u) := by
  constructor
  · intro st r1 r2 ha hr hm
    have hattr : ((List.range st.kinds).flatMap fun i =>
          (List.range st.kinds).map fun j => sim.attractionAt r1 i j)
        = (List.range st.kinds).flatMap fun i =>
          (List.range st.kinds).map fun j => sim.attractionAt r2 i j := by
      apply flatMap_congr_left
      intro i himem
      have hik := List.mem_range.mp himem
      apply List.map_congr_left
      intro j hjmem
      have hjk := List.mem_range.mp hjmem
      simp only [sim.attractionAt, ha i j hik hjk]
    have hsymt : ((List.range st.kinds).flatMap fun i =>
          (List.range (i + 1)).map fun j => kinds.symPropsAt r1 i j)
        = (List.range st.kinds).flatMap fun i =>
          (List.range (i + 1)).map fun j => kinds.symPropsAt r2 i j := by
      apply flatMap_congr_left
      intro i himem
      have hik := List.mem_range.mp himem
      apply List.map_congr_left
      intro j hjmem
      have hji : j < i + 1 := List.mem_range.mp hjmem
      have hjk : j < st.kinds := by omega
      simp only [kinds.symPropsAt, hr i j hik hjk, hm i j hik hjk]
    rw [kinds.ParticleKinds.random, kinds.ParticleKinds.random, hattr, hsymt]
  · intro num e1 e2 u ha hr hm
    have h1 : ((List.range num).map fun i => (List.range num).map (univ.attractionAt e1 i))
        = (List.range num).map fun i => (List.range num).map (univ.attractionAt e2 i) := by
      apply List.map_congr_left
      intro i himem
      have hik := List.mem_range.mp himem
      apply List.map_congr_left
      intro j hjmem
      have hjk := List.mem_range.mp hjmem
      exact univ.attractionAt_congr e1 e2 i j (ha i j hik hjk)
    have h2 : ((List.range num).map fun i => (List.range num).map (univ.minRadiusAt e1 i))
        = (List.range num).map fun i => (List.range num).map (univ.minRadiusAt e2 i) := by
      apply List.map_congr_left
      intro i himem
      have hik := List.mem_range.mp himem
      apply List.map_congr_left
      intro j hjmem
      have hjk := List.mem_range.mp hjmem
      exact univ.minRadiusAt_congr e1 e2 num i j hik hjk hr
    have h3 : ((List.range num).map fun i => (List.range num).map (univ.maxRadiusAt e1 i))
        = (List.range num).map fun i => (List.range num).map (univ.maxRadiusAt e2 i) := by
      apply List.map_congr_left
      intro i himem
      have hik := List.mem_range.mp himem
      apply List.map_congr_left
      intro j hjmem
      have hjk := List.mem_range.mp hjmem
      exact univ.maxRadiusAt_congr e1 e2 num i j hik hjk hr hm
    rw [univ.Universe.seedTypes, univ.Universe.seedTypes, h1, h2, h3]

/-- Witness for C7: two streams that agree on every consumed draw but differ
wildly at unconsumed indices generate identical tables. -/
theorem table_generation_deterministic_witness :
    kinds.ParticleKinds.random ⟨0, 1, 0, false⟩
        ⟨fun _ _ => 0, fun _ _ => 0, fun _ _ => 0, fun _ => 0, fun _ => 0, fun _ => 0⟩
      = kinds.ParticleKinds.random ⟨0, 1, 0, false⟩
        ⟨fun i j => if i < 1 ∧ j < 1 then 0 else 7,
         fun i j => if i < 1 ∧ j < 1 then 0 else 8,
         fun i j => if i < 1 ∧ j < 1 then 0 else 9,
         fun _ => 3, fun _ => 4, fun _ => 5⟩ :=
  table_generation_deterministic.1 ⟨0, 1, 0, false⟩
    ⟨fun _ _ => 0, fun _ _ => 0, fun _ _ => 0, fun _ => 0, fun _ => 0, fun _ => 0⟩
    ⟨fun i j => if i < 1 ∧ j < 1 then 0 else 7,
     fun i j => if i < 1 ∧ j < 1 then 0 else 8,
     fun i j => if i < 1 ∧ j < 1 then 0 else 9,
     fun _ => 3, fun _ => 4, fun _ => 5⟩
    (fun i j hi hj => by simp [hi, hj])
    (fun i j hi hj => by simp [hi, hj])
    (fun i j hi hj => by simp [hi, hj])

/-- C8 (amended): with `kind_count = 0` table generation does not fail fast.
`ParticleKinds::random` returns normally with three empty tables;
`Sim::new` likewise returns normally with empty tables when
`particle_count = 0`, and panics — only when `particle_count ≥ 1`, and only
inside `Particle::generate` (the `Uniform::new(0, 0)` of particle
generation), not at table generation. -/
theorem k0_generation_amended :
    (∀ (st : sim.Settings) (rng : sim.Rng), st.kinds = 0 → 1 ≤ st.particles →
        sim.Sim.new st rng = none)
  ∧ (∀ (st : sim.Settings) (rng : sim.Rng), st.kinds = 0 → st.particles = 0 →
        sim.Sim.new st rng = some ⟨false, st.flat_force, st.friction, [], [], []⟩)
  ∧ (∀ (st : sim.Settings) (rng : sim.Rng), st.kinds = 0 →
        kinds.ParticleKinds.random st rng = ⟨[], [], []⟩) := by
  refine ⟨?_, ?_, ?_⟩
  · intro st rng hk hp
    obtain ⟨m, hm⟩ : ∃ m, st.particles = m + 1 := ⟨st.particles - 1, by omega⟩
    simp only [sim.Sim.new, hk, hm, List.range_succ_eq_map, List.mapM_cons]
    simp [sim.Particle.generate]
  · intro st rng hk hp
    simp [sim.Sim.new, hk, hp, List.range_zero, List.mapM_nil, sim.buildColors,
      sim.buildProps, sim.sortByKind, List.insertionSort]
    exact ⟨[], rfl, rfl⟩
  · intro st rng hk
    simp [kinds.ParticleKinds.random, hk]

/-- Counterexample for C8 as stated: with `kind_count = 0` the generators do
return.  `ParticleKinds::random` silently produces the three empty tables,
and `Sim::new` with zero particles silently produces a `Sim` with empty
colour and pair-property tables — no error, no abort. -/
theorem k0_generation_counterexample :
    kinds.ParticleKinds.random ⟨400, 0, 1 / 20, false⟩
        ⟨fun _ _ => 0, fun _ _ => 0, fun _ _ => 0, fun _ => 0, fun _ => 0, fun _ => 0⟩
      = ⟨[], [], []⟩
    ∧ sim.Sim.new ⟨0, 0, 1 / 20, false⟩
        ⟨fun _ _ => 0, fun _ _ => 0, fun _ _ => 0, fun _ => 0, fun _ => 0, fun _ => 0⟩
      = some ⟨false, false, 1 / 20, [], [], []⟩ := by
  constructor
  · simp [kinds.ParticleKinds.random]
  · simp [sim.Sim.new, List.range_zero, List.mapM_nil, sim.buildColors, sim.buildProps,
      sim.sortByKind, List.insertionSort]
    exact ⟨[], rfl, rfl⟩

/-- Witness for the amended C8: one particle with zero kinds makes
`Sim::new` panic, and `ParticleKinds::random` still returns empty tables. -/
theorem k0_generation_witness :
    sim.Sim.new ⟨1, 0, 0, false⟩
        ⟨fun _ _ => 0, fun _ _ => 0, fun _ _ => 0, fun _ => 0, fun _ => 0, fun _ => 0⟩ = none
    ∧ kinds.ParticleKinds.random ⟨1, 0, 0, false⟩
        ⟨fun _ _ => 0, fun _ _ => 0, fun _ _ => 0, fun _ => 0, fun _ => 0, fun _ => 0⟩
      = ⟨[], [], []⟩ :=
  ⟨k0_generation_amended.1 ⟨1, 0, 0, false⟩
      ⟨fun _ _ => 0, fun _ _ => 0, fun _ _ => 0, fun _ => 0, fun _ => 0, fun _ => 0⟩
      rfl (by norm_num),
    k0_generation_amended.2.2 ⟨1, 0, 0, false⟩
      ⟨fun _ _ => 0, fun _ _ => 0, fun _ _ => 0, fun _ => 0, fun _ => 0, fun _ => 0⟩ rfl⟩

end ParticleLife
